import Mathlib

set_option synthInstance.maxSize 1024

/-!
Verification development for the KKBox music-recommendation feature pipeline
(`script/refactor.py`).  The pandas dataframes are shallowly embedded as Lean
lists of per-table row structures; nullable columns are `Option` fields;
pandas exceptions (KeyError on a missing column, ValueError on `astype(int)`
of a NaN column, AssertionError from the null-check asserts, the dispatcher
asserts) become an explicit error type threaded through `Except`.
-/

/-- Failure modes of the embedded pipeline.  `dispatch` covers the two
dispatcher asserts in `DataProcessor.process` (unknown command, engineering
without a reference table); `dataIntegrity` is the per-transformer
`assert (~df.isnull().any().any())`; `keyError` is pandas' KeyError when a
transform reads a column the table does not have; `valueError` is raised by
`astype(int)` applied to a column holding NaN; `typeError` covers operating
on a table slot that still holds `None`. -/
inductive Err where
  | stageOrder
  | dispatch
  | dataIntegrity
  | keyError
  | valueError
  | typeError
deriving DecidableEq, Repr

instance {ε α : Type} [DecidableEq ε] [DecidableEq α] : DecidableEq (Except ε α) :=
  fun x y =>
    match x, y with
    | .ok a, .ok b =>
      if h : a = b then .isTrue (by rw [h]) else .isFalse (fun hc => h (Except.ok.inj hc))
    | .error e, .error f =>
      if h : e = f then .isTrue (by rw [h]) else .isFalse (fun hc => h (Except.error.inj hc))
    | .ok _, .error _ => .isFalse (fun hc => Except.noConfusion hc)
    | .error _, .ok _ => .isFalse (fun hc => Except.noConfusion hc)

/-- `List.isPrefixOf` spelled out for characters: embedding of Python
substring search, used for `'feat' in str(x)`-style tests. -/
def listStartsWith : List Char → List Char → Bool
  | [], _ => true
  | _ :: _, [] => false
  | a :: as, b :: bs => a == b && listStartsWith as bs

/-- Python `pat in s` (substring membership). -/
def strContains (s pat : String) : Bool :=
  (s.data.tails).any (fun t => listStartsWith pat.data t)

/-- Python `s.count(pat)` for a non-empty pattern: number of non-overlapping
occurrences, which equals `len(s.split(pat)) - 1`. -/
def countSubstr (s pat : String) : Nat :=
  (s.splitOn pat).length - 1

/-- pandas `drop_duplicates(key)`: keep the first row for each key value.
`seen` accumulates the key values already kept. -/
def dropDupsBy {σ κ : Type} [DecidableEq κ] (key : σ → κ) : List κ → List σ → List σ
  | _, [] => []
  | seen, r :: rs =>
    if key r ∈ seen then dropDupsBy key seen rs
    else r :: dropDupsBy key (key r :: seen) rs

/-- pandas `Series.value_counts()`: one row per distinct value with its
number of occurrences.  (The real function orders rows by descending count;
every use in the source feeds the result into a keyed left merge, for which
row order is irrelevant, so we keep `dedup` order.) -/
def valueCounts {α : Type} [DecidableEq α] (xs : List α) : List (α × Nat) :=
  xs.dedup.map (fun k => (k, xs.count k))

/-- pandas `left.merge(right, on=key, how='left')`: every left row is kept;
a left row with `m ≥ 1` key matches yields `m` output rows (one per matching
right row, in right-table order), and an unmatched left row yields a single
output row whose right side is all-null (`none`). -/
def mergeLeft {L R K : Type} [DecidableEq K] (lk : L → K) (rk : R → K)
    (left : List L) (right : List R) : List (L × Option R) :=
  left.flatMap fun l =>
    match right.filter (fun r => decide (rk r = lk l)) with
    | [] => [(l, none)]
    | ms => ms.map (fun r => (l, some r))

/-- A value of the `language` column after `fillna('nan')`: either the
original numeric code or the literal string `'nan'` (pandas keeps the column
as mixed object dtype). -/
inductive LangV where
  | num (z : Int)
  | nanStr
deriving DecidableEq, Repr

/-- Python `str(x)` for a `language` cell (codes are integral floats, so
`str` renders them with a trailing `.0`). -/
def pyStrLang : LangV → String
  | .num z => toString z ++ ".0"
  | .nanStr => "nan"

/-- A value of the members `bd` column after `__transform_bd_outliers`:
either the retained age or the literal string `'nan'`. -/
inductive BdV where
  | num (q : Rat)
  | nanStr
deriving DecidableEq, Repr

/-- A date cell as the pipeline observes it: calendar year and month (for
`.dt.year` / `.dt.month`) plus an absolute day index (so that subtracting
two dates yields `.dt.days`). -/
structure PDate where
  year : Int
  month : Int
  days : Int
deriving DecidableEq, Repr

/-! ## songs table (`SongsProcessor`) -/

/-- A raw row of `songs.csv` (schema from section 6 of the spec). -/
structure SongsRawRow where
  song_id : String
  song_length : Option Int
  genre_ids : Option String
  artist_name : Option String
  composer : Option String
  lyricist : Option String
  language : Option Int
deriving DecidableEq, Repr

/-- A songs row after `SongsProcessor.parse`.  Columns the transform fills
are non-optional; `song_length` is never filled, only checked by the final
assert, so it stays optional. -/
structure SongsParsedRow where
  song_id : String
  song_length : Option Int
  genre_ids : String
  artist_name : String
  composer : String
  lyricist : String
  language : LangV
  is_featured : Int
  artist_count : Int
  artist_composer : Int
  artist_composer_lyricist : Int
  song_lang_boolean : Int
  genre_count : Nat
  composer_count : Nat
  lyricist_count : Nat
  oneh_lang : Nat
  oneh_song_length : Nat
deriving DecidableEq, Repr

namespace SongsProcessor

/-- `SongsProcessor.__is_featured`. -/
def is_featured (x : String) : Int :=
  if strContains x "feat" then 1 else 0

/-- `SongsProcessor.__artist_count`. -/
def artist_count (x : String) : Int :=
  if x = "no_artist" then 0
  else (countSubstr x "and" + countSubstr x "," + countSubstr x "feat" + countSubstr x "&" : Nat)

/-- `SongsProcessor.__song_lang_boolean`: is `'17.0'` or `'45.0'` a substring
of `str(x)`. -/
def song_lang_boolean (x : LangV) : Int :=
  if strContains (pyStrLang x) "17.0" || strContains (pyStrLang x) "45.0" then 1 else 0

/-- `SongsProcessor.__parse_splitted_category_to_number`.  After the fills the
argument is always a string, so the `x is np.nan` branch is unreachable; the
`x.replace(...)` results are discarded by the source (strings are immutable
and the returns are not assigned), so only `x.count('|') + 1` remains. -/
def parse_splitted_category_to_number (x : String) : Nat :=
  countSubstr x "|" + 1

/-- `SongsProcessor.__one_hot_encode_lang`: `x in [-1, 17, 45]` (the filled
string `'nan'` is never in that list). -/
def one_hot_encode_lang (x : LangV) : Nat :=
  match x with
  | .num z => if z = -1 ∨ z = 17 ∨ z = 45 then 1 else 0
  | .nanStr => 0

/-- `1 if x <= 239738 else 0`; a NaN length compares false. -/
def one_hot_encode_song_length (x : Option Int) : Nat :=
  match x with
  | some v => if v ≤ 239738 then 1 else 0
  | none => 0

/-- The columnwise body of `SongsProcessor.parse` on one row: the five fills
followed by the derived columns. -/
def parseRow (r : SongsRawRow) : SongsParsedRow :=
  let artist := r.artist_name.getD "no_artist"
  let lang : LangV := match r.language with
    | some z => .num z
    | none => .nanStr
  let composer := r.composer.getD "nan"
  let lyricist := r.lyricist.getD "nan"
  let genre := r.genre_ids.getD "nan"
  { song_id := r.song_id
    song_length := r.song_length
    genre_ids := genre
    artist_name := artist
    composer := composer
    lyricist := lyricist
    language := lang
    is_featured := is_featured artist
    artist_count := artist_count artist
    artist_composer := if artist = composer then 1 else 0
    artist_composer_lyricist :=
      if artist = composer ∧ artist = lyricist ∧ composer = lyricist then 1 else 0
    song_lang_boolean := song_lang_boolean lang
    genre_count := parse_splitted_category_to_number genre
    composer_count := parse_splitted_category_to_number composer
    lyricist_count := parse_splitted_category_to_number lyricist
    oneh_lang := one_hot_encode_lang lang
    oneh_song_length := one_hot_encode_song_length r.song_length }

/-- The only column of the parsed table that can still hold a null. -/
def rowHasNull (r : SongsParsedRow) : Bool :=
  r.song_length.isNone

/-- `SongsProcessor.parse`: columnwise fills and feature derivations, then
`assert (~df.isnull().any().any())` — a surviving null (a missing
`song_length`) aborts the transform. -/
def parse (df : List SongsRawRow) : Except Err (List SongsParsedRow) :=
  let out := df.map parseRow
  if out.any rowHasNull then .error .dataIntegrity else .ok out

end SongsProcessor

/-! ## members table (`MembersProcessor`) -/

/-- A raw row of `members.csv` (schema from section 6 of the spec; the two
date columns are parsed by the loader and may be missing). -/
structure MembersRawRow where
  msno : String
  gender : Option String
  bd : Option Rat
  registered_via : Option Int
  registration_init_time : Option PDate
  expiration_date : Option PDate
deriving DecidableEq, Repr

/-- A members row after `MembersProcessor.parse`.  `registration_init_time`
is dropped; `registered_via` is never filled, only checked by the final
assert, so it stays optional. -/
structure MembersParsedRow where
  msno : String
  gender : String
  bd : BdV
  registered_via : Option Int
  expiration_date : PDate
  membership_days : Int
  registration_year : Int
  registration_month : Int
  expiration_year : Int
  expiration_month : Int
  oneh_via : Nat
deriving DecidableEq, Repr

namespace MembersProcessor

/-- `MembersProcessor.__transform_bd_outliers`.  A NaN age fails every
comparison and therefore also lands in the `'nan'` branch. -/
def transform_bd_outliers (bd : Option Rat) : BdV :=
  match bd with
  | none => .nanStr
  | some b =>
    if b ≥ 120 ∨ b ≤ 7 then .nanStr
    else if |b - (28.99737187910644 : Rat)| ≤ 3 * (9.538470787507382 : Rat) then .num b
    else .nanStr

/-- `MembersProcessor.__one_hot_encode_via`: `0 if x == 4 else 1` (a NaN
`registered_via` compares unequal to 4 and yields 1). -/
def one_hot_encode_via (x : Option Int) : Nat :=
  if x = some 4 then 0 else 1

/-- The columnwise body of `MembersProcessor.parse` on one row, assuming both
date cells are present (checked before this is used: a missing date makes the
whole-column `astype(int)` raise first). -/
def parseRow (r : MembersRawRow) : MembersParsedRow :=
  let reg := r.registration_init_time.getD ⟨0, 0, 0⟩
  let exp := r.expiration_date.getD ⟨0, 0, 0⟩
  { msno := r.msno
    gender := r.gender.getD "nan"
    bd := transform_bd_outliers r.bd
    registered_via := r.registered_via
    expiration_date := exp
    membership_days := exp.days - reg.days
    registration_year := reg.year
    registration_month := reg.month
    expiration_year := exp.year
    expiration_month := exp.month
    oneh_via := one_hot_encode_via r.registered_via }

/-- The only column of the parsed table that can still hold a null. -/
def rowHasNull (r : MembersParsedRow) : Bool :=
  r.registered_via.isNone

/-- `MembersProcessor.parse`: the gender fill, then
`membership_days = (expiration - registration).dt.days.astype(int)` — which
raises ValueError if any date is missing — then the derived columns, the
drop of `registration_init_time`, and the final null-check assert. -/
def parse (df : List MembersRawRow) : Except Err (List MembersParsedRow) :=
  if df.any (fun r => r.registration_init_time.isNone || r.expiration_date.isNone)
  then .error .valueError
  else
    let out := df.map parseRow
    if out.any rowHasNull then .error .dataIntegrity else .ok out

end MembersProcessor

/-! ## song_extra_info table (`SongExtraProcessor`) -/

/-- A raw row of `song_extra_info.csv`. -/
structure ExtraRawRow where
  song_id : String
  name : Option String
  isrc : Option String
deriving DecidableEq, Repr

/-- A row after `SongExtraProcessor.parse`: `name` and `isrc` are dropped,
`song_year` is filled with 2017 after the one-hot column is derived, so no
column of the result is nullable. -/
structure ExtraParsedRow where
  song_id : String
  song_year : Int
  oneh_song_year : Nat
deriving DecidableEq, Repr

namespace SongExtraProcessor

/-- Python `int(cs)` on the (1- or 2-character) slice `isrc[5:7]`: succeeds
iff the slice is non-empty and all digits. -/
def digitsToNat : List Char → Option Nat
  | [] => none
  | cs => if cs.all Char.isDigit
      then some (cs.foldl (fun n c => n * 10 + (c.toNat - 48)) 0)
      else none

/-- `SongExtraProcessor.__transform_isrc_to_year`: a non-string cell becomes
NaN; otherwise the two-digit year at positions 5-6 resolves to 19xx when
above 17 and 20xx otherwise.  `int` on a malformed slice raises. -/
def transform_isrc_to_year (isrc : Option String) : Except Err (Option Int) :=
  match isrc with
  | none => .ok none
  | some s =>
    match digitsToNat ((s.data.drop 5).take 2) with
    | none => .error .valueError
    | some suffix => .ok (some (if suffix > 17 then 1900 + suffix else 2000 + suffix))

/-- `SongExtraProcessor.__one_hot_encode_year`: `2013 <= float(x) <= 2017`;
NaN compares false. -/
def one_hot_encode_year (x : Option Int) : Nat :=
  match x with
  | some y => if 2013 ≤ y ∧ y ≤ 2017 then 1 else 0
  | none => 0

/-- `SongExtraProcessor.parse`: derive `song_year` from `isrc` row by row
(a malformed code aborts the column), drop `name` and `isrc`, derive the
one-hot year, then fill `song_year` with 2017.  After the fill every
remaining column is total, so the final null-check assert of the source
always passes. -/
def parse : List ExtraRawRow → Except Err (List ExtraParsedRow)
  | [] => .ok []
  | r :: rs => do
    let y ← transform_isrc_to_year r.isrc
    let os ← parse rs
    pure (({ song_id := r.song_id
             song_year := y.getD 2017
             oneh_song_year := one_hot_encode_year y } : ExtraParsedRow) :: os)

end SongExtraProcessor

/-! ## train / test event tables (`TrainTestProcessor`) -/

/-- An event row (`train.csv` / `test.csv`).  The three source columns are
nullable; `target` is the binary outcome, meaningful only when the enclosing
table actually has the column (see `EventDF.hasTarget`).  The four derived
one-hot columns are materialized here with placeholder value 0 so that the
transform's output (which assigns all four) has the same row type as its
input — `pre_process` re-feeds a transformed table into the same transform. -/
structure EventRow where
  msno : String
  song_id : String
  source_system_tab : Option String
  source_screen_name : Option String
  source_type : Option String
  target : Rat
  oneh_source : Nat := 0
  oneh_system_tab : Nat := 0
  oneh_screen_name : Nat := 0
  oneh_source_type : Nat := 0
deriving DecidableEq, Repr

/-- An event table: its rows plus whether the `target` column is present
(`train.csv` has it, `test.csv` does not). -/
structure EventDF where
  rows : List EventRow
  hasTarget : Bool
deriving DecidableEq, Repr

namespace TrainTestProcessor

/-- The three `fillna` calls of `TrainTestProcessor.parse`. -/
def fillRow (r : EventRow) : EventRow :=
  { r with
    source_system_tab := some (r.source_system_tab.getD "others")
    source_screen_name := some (r.source_screen_name.getD "others")
    source_type := some (r.source_type.getD "nan") }

/-- The `source_merged` key: the three (filled) source columns joined with
`' | '`.  (On filled rows the `getD` defaults are unreachable.) -/
def smKey (r : EventRow) : String :=
  r.source_system_tab.getD "nan" ++ " | " ++
    r.source_screen_name.getD "nan" ++ " | " ++ r.source_type.getD "nan"

/-- `count_df`: group the (filled) rows by `source_merged` and record the
mean (`source_replay_pb`) and size (`source_replay_count`) of each group's
`target` column.  (pandas sorts the group keys; every consumer is a keyed
left merge, so we keep first-occurrence order.) -/
def countDF (rows : List EventRow) : List (String × Rat × Nat) :=
  ((rows.map smKey).dedup).map fun a =>
    let g := rows.filter (fun r => decide (smKey r = a))
    (a, ((g.map EventRow.target).sum) / (g.length : Rat), g.length)

/-- `TrainTestProcessor.__one_hot_encode_source`: `1 if x >= 0.6 else 0`; the
merge result is `None` only for a row whose key misses `count_df`, in which
case the NaN probability compares false. -/
def one_hot_encode_source (x : Option (String × Rat × Nat)) : Nat :=
  match x with
  | some t => if t.2.1 ≥ (0.6 : Rat) then 1 else 0
  | none => 0

/-- `TrainTestProcessor.__one_hot_encode_system_tab` (applied to the filled
column). -/
def one_hot_encode_system_tab (x : Option String) : Nat :=
  if x = some "my library" then 1 else 0

/-- `TrainTestProcessor.__one_hot_encode_screen_name`. -/
def one_hot_encode_screen_name (x : Option String) : Nat :=
  if x = some "Local playlist more" ∨ x = some "My library" then 1 else 0

/-- `TrainTestProcessor.__one_hot_encode_source_type`. -/
def one_hot_encode_source_type (x : Option String) : Nat :=
  if x = some "local-library" ∨ x = some "local-playlist" then 1 else 0

/-- Assign the four one-hot columns to a merged row and drop the merge
columns (`source_merged`, `source_replay_pb`, `source_replay_count`). -/
def finishRow (p : EventRow × Option (String × Rat × Nat)) : EventRow :=
  { p.1 with
    oneh_source := one_hot_encode_source p.2
    oneh_system_tab := one_hot_encode_system_tab p.1.source_system_tab
    oneh_screen_name := one_hot_encode_screen_name p.1.source_screen_name
    oneh_source_type := one_hot_encode_source_type p.1.source_type }

/-- Columns of the final table that could hold a null (after the fills none
does; the check mirrors the source's closing assert). -/
def rowHasNull (r : EventRow) : Bool :=
  r.source_system_tab.isNone || r.source_screen_name.isNone || r.source_type.isNone

/-- The row pipeline of `TrainTestProcessor.parse`: the three fills, then the
keyed left merge of the grouped replay statistics back onto the table, then
the one-hot assignments and the drop of the merge columns. -/
def outRows (rows : List EventRow) : List EventRow :=
  let rows1 := rows.map fillRow
  (mergeLeft smKey (fun t => t.1) rows1 (countDF rows1)).map finishRow

/-- `TrainTestProcessor.parse`: the three fills, the `source_merged` key, the
grouped replay statistics — reading `df['target']`, a KeyError when the table
has no target column — the keyed left merge back onto the table, the four
one-hot derivations, the drop of the merge columns, and the final null-check
assert.  The output keeps the `target` column. -/
def parse (df : EventDF) : Except Err EventDF :=
  if df.hasTarget = false then .error .keyError
  else
    let out := outRows df.rows
    if out.any rowHasNull then .error .dataIntegrity
    else .ok ⟨out, df.hasTarget⟩

end TrainTestProcessor

/-! ## engineering transformer (`EngineeringProcessor`) -/

/-- The columns `EngineeringProcessor` reads from its target and reference
tables.  `artist_name` and `language` come from the left-merged songs
attributes, so they may be null; `target` is meaningful only when the table
carries the column (tracked separately, as for `EventDF`). -/
class EngCols (ρ : Type) where
  song_id : ρ → String
  artist_name : ρ → Option String
  language : ρ → Option LangV
  target : ρ → Rat

/-- A standalone engineering-stage table row carrying exactly the columns the
transformer touches. -/
structure EngRow where
  song_id : String
  artist_name : Option String
  language : Option LangV
  target : Rat
deriving DecidableEq, Repr

instance : EngCols EngRow where
  song_id := EngRow.song_id
  artist_name := EngRow.artist_name
  language := EngRow.language
  target := EngRow.target

/-- Each engineering step appends one numeric column; the row type grows by
one `Nat` while the original columns remain readable through `.1`. -/
instance {ρ : Type} [EngCols ρ] : EngCols (ρ × Nat) where
  song_id := fun r => EngCols.song_id r.1
  artist_name := fun r => EngCols.artist_name r.1
  language := fun r => EngCols.language r.1
  target := fun r => EngCols.target r.1

namespace EngineeringProcessor

/-- `EngineeringProcessor.generate_play_count`: `value_counts` of the
reference table's `song_id`, left-merged onto the target table by `song_id`,
missing counts filled with 0. -/
def generate_play_count {ρ σ : Type} [EngCols ρ] [EngCols σ]
    (ref_df : List σ) (df : List ρ) : List (ρ × Nat) :=
  let count_df := valueCounts (ref_df.map EngCols.song_id)
  (mergeLeft EngCols.song_id Prod.fst df count_df).map
    (fun p => (p.1, ((p.2.map Prod.snd).getD 0)))

/-- `EngineeringProcessor.generate_track_count`:
`ref[['song_id','artist_name']].drop_duplicates('song_id')` grouped by
`artist_name` (pandas drops null group keys) and counted; in parallel the
target table's own `target` column is grouped by `artist_name` into a
replay-probability/size pair — reading `df['target']`, a KeyError when the
target table has no such column — the two are merged, and only the
`track_count` column is merged back onto the target table, missing counts
filled with 0.  (`sort_values` only reorders the keyed right table of a
merge, so it is not reflected.) -/
def generate_track_count {ρ σ : Type} [EngCols ρ] [EngCols σ]
    (ref_df : List σ) (hasTarget : Bool) (df : List ρ) :
    Except Err (List (ρ × Nat)) :=
  let dd := dropDupsBy EngCols.song_id [] ref_df
  let track_count_df : List (String × Nat) :=
    ((dd.filterMap EngCols.artist_name).dedup).map
      (fun a => (a, (dd.filter (fun r => decide (EngCols.artist_name r = some a))).length))
  if hasTarget = false then .error .keyError
  else
    let artistKeys := (df.filterMap EngCols.artist_name).dedup
    let artist_count_df : List (String × Rat × Nat) := artistKeys.map fun a =>
      let g := df.filter (fun r => decide (EngCols.artist_name r = some a))
      (a, ((g.map EngCols.target).sum) / (g.length : Rat), g.length)
    let acTrack : List (String × Option Nat) :=
      (mergeLeft (fun t => t.1) (fun t => t.1) artist_count_df track_count_df).map
        (fun p => (p.1.1, p.2.map Prod.snd))
    .ok ((mergeLeft EngCols.artist_name (fun t => some t.1) df acTrack).map
      (fun p => (p.1, ((p.2.bind Prod.snd).getD 0))))

/-- `EngineeringProcessor.generate_cover_lang`: deduplicate the reference
table's `(artist_name, language)` pairs (pandas `drop_duplicates` treats
nulls as equal), `value_counts` of the artist column (null keys dropped),
left-merged onto the target table by `artist_name`, missing counts filled
with 0. -/
def generate_cover_lang {ρ σ : Type} [EngCols ρ] [EngCols σ]
    (ref_df : List σ) (df : List ρ) : List (ρ × Nat) :=
  let pairs := ref_df.map (fun r => (EngCols.artist_name r, EngCols.language r))
  let dd := dropDupsBy id [] pairs
  let cover_lang_df : List (String × Nat) :=
    ((dd.filterMap Prod.fst).dedup).map
      (fun a => (a, (dd.filter (fun p => decide (p.1 = some a))).length))
  (mergeLeft EngCols.artist_name (fun t => some t.1) df cover_lang_df).map
    (fun p => (p.1, ((p.2.map Prod.snd).getD 0)))

/-- `EngineeringProcessor.parse`: play count, then track count, then cover
language, each appending its column.  An exception in any step (the
track-count KeyError when the target table lacks `target`) aborts the whole
transform with no output. -/
def parse {ρ σ : Type} [EngCols ρ] [EngCols σ]
    (ref_df : List σ) (hasTarget : Bool) (df : List ρ) :
    Except Err (List (((ρ × Nat) × Nat) × Nat)) := do
  let d1 := generate_play_count ref_df df
  let d2 ← generate_track_count ref_df hasTarget d1
  let d3 := generate_cover_lang ref_df d2
  pure d3

end EngineeringProcessor

/-! ## dispatcher (`DataProcessor.process`) -/

/-- Merged row types produced by `pre_process`: an enriched songs row with
its (possibly unmatched) `song_extra` attributes, and an event row with its
(possibly unmatched) songs and members attributes.  A left-merge miss nulls
out every right-side column at once, which the embedding renders as one
`Option` around the whole right record. -/
abbrev SongsMergedRow := SongsParsedRow × Option ExtraParsedRow

/-- An event row after the two merges of `pre_process`. -/
abbrev TrainMergedRow := (EventRow × Option SongsMergedRow) × Option MembersParsedRow

/-- A merged event row after the three engineering steps. -/
abbrev EngOutRow := ((TrainMergedRow × Nat) × Nat) × Nat

/-- The engineering columns of a merged event row: `song_id` survives the
merges as the (coalesced) merge key; `artist_name` and `language` come from
the songs side and are null when the songs merge missed; `target` comes from
the event side. -/
instance : EngCols TrainMergedRow where
  song_id := fun r => r.1.1.song_id
  artist_name := fun r => r.1.2.map (fun s => s.1.artist_name)
  language := fun r => r.1.2.map (fun s => s.1.language)
  target := fun r => r.1.1.target

/-- A dataframe as the dynamically-typed dispatcher sees it: any of the table
shapes that can reach `DataProcessor.process`, raw or already transformed. -/
inductive AnyDF where
  | events (df : EventDF)
  | membersR (rows : List MembersRawRow)
  | membersP (rows : List MembersParsedRow)
  | songsR (rows : List SongsRawRow)
  | songsP (rows : List SongsParsedRow)
  | extraR (rows : List ExtraRawRow)
  | extraP (rows : List ExtraParsedRow)
  | engT (rows : List EngRow) (hasTarget : Bool)
  | engOut (rows : List (((EngRow × Nat) × Nat) × Nat))
deriving DecidableEq, Repr

/-- The six recognized command strings. -/
def validCommands : List String :=
  ["train", "test", "members", "songs", "song_extra_info", "engineering"]

namespace DataProcessor

/-- `DataProcessor.process`: route the table to the transformer named by
`command`.  `train` and `test` both construct a `TrainTestProcessor`;
`engineering` first asserts that a reference table was passed (its absence is
the spec's `DispatchError`), and an unrecognized command leaves `res = None`,
tripping the closing `assert res is not None` (also a `DispatchError`).
A recognized command applied to a table that lacks the columns the selected
transformer reads fails inside the transformer with a KeyError (for a
re-transformed engineering table, the duplicated `play_count` column is
renamed by merge suffixing and the following column access raises). -/
def process (df : AnyDF) (command : String) (ref_df : Option AnyDF) :
    Except Err AnyDF :=
  if command = "train" ∨ command = "test" then
    match df with
    | .events e => (TrainTestProcessor.parse e).map .events
    | _ => .error .keyError
  else if command = "members" then
    match df with
    | .membersR m => (MembersProcessor.parse m).map .membersP
    | _ => .error .keyError
  else if command = "songs" then
    match df with
    | .songsR s => (SongsProcessor.parse s).map .songsP
    | _ => .error .keyError
  else if command = "song_extra_info" then
    match df with
    | .extraR s => (SongExtraProcessor.parse s).map .extraP
    | _ => .error .keyError
  else if command = "engineering" then
    match ref_df with
    | none => .error .dispatch
    | some r =>
      match df, r with
      | .engT rows hasT, .engT refRows _ =>
        (EngineeringProcessor.parse refRows hasT rows).map .engOut
      | _, _ => .error .keyError
  else .error .dispatch

end DataProcessor

/-! ## pipeline stage manager (`FeatureProcessor`), single-pass table layer -/

/-- The five tables `load_raw` reads from disk. -/
structure RawTables where
  train : EventDF
  test : EventDF
  members : List MembersRawRow
  songs : List SongsRawRow
  song_extra : List ExtraRawRow
deriving DecidableEq, Repr

/-- The table slots after `pre_process`. -/
structure PreTables where
  train : List TrainMergedRow
  test : List TrainMergedRow
  members : List MembersParsedRow
  songs : List SongsMergedRow
  song_extra : List ExtraParsedRow
  comb : List TrainMergedRow
deriving DecidableEq, Repr

/-- The table slots after `feature_engineering`. -/
structure EngTables where
  train : List EngOutRow
  test : List EngOutRow
deriving DecidableEq, Repr

namespace FeatureProcessor

/-- `FeatureProcessor.pre_process`, table layer: the five per-table
transforms — the second of which, line 383 of the source, feeds
`self._train_df` (already reassigned to the transformed train table on the
previous line) to the `test` transform instead of `self._test_df` — then the
three left merges and the concatenation into the combined table. -/
def pre_process (r : RawTables) : Except Err PreTables := do
  let train1 ← TrainTestProcessor.parse r.train
  let test1 ← TrainTestProcessor.parse train1
  let members1 ← MembersProcessor.parse r.members
  let songs1 ← SongsProcessor.parse r.songs
  let extra1 ← SongExtraProcessor.parse r.song_extra
  let songs2 := mergeLeft SongsParsedRow.song_id ExtraParsedRow.song_id songs1 extra1
  let train2 := mergeLeft EventRow.song_id (fun s => s.1.song_id) train1.rows songs2
  let test2 := mergeLeft EventRow.song_id (fun s => s.1.song_id) test1.rows songs2
  let train3 := mergeLeft (fun p => p.1.msno) MembersParsedRow.msno train2 members1
  let test3 := mergeLeft (fun p => p.1.msno) MembersParsedRow.msno test2 members1
  pure { train := train3, test := test3, members := members1
         songs := songs2, song_extra := extra1, comb := train3 ++ test3 }

/-- `FeatureProcessor.feature_engineering`, table layer: the engineering
transform on the train table with itself as reference, and on the test table
with the combined table as reference.  Both tables carry the `target` column
at this point: `pre_process` only succeeds when the train table has it, and
both its event outputs descend from the train table. -/
def feature_engineering (p : PreTables) : Except Err EngTables := do
  let tr ← EngineeringProcessor.parse p.train true p.train
  let te ← EngineeringProcessor.parse p.comb true p.test
  pure { train := tr, test := te }

/-- The full single-pass pipeline on loaded tables: `pre_process` then
`feature_engineering` (`main()` without the file loading). -/
def pipeline (r : RawTables) : Except Err EngTables := do
  let p ← pre_process r
  feature_engineering p

end FeatureProcessor

/-! ## pipeline stage manager, state-machine layer -/

namespace FeatureProcessor

/-- `FeatureProcessor.__INITIALIZATION_READY`. -/
def INITIALIZATION_READY : Nat := 0

/-- `FeatureProcessor.__LOAD_READY`. -/
def LOAD_READY : Nat := 1

/-- `FeatureProcessor.__PREPROCESS_READY`. -/
def PREPROCESS_READY : Nat := 2

/-- `FeatureProcessor.__ENGINEERING_READY`. -/
def ENGINEERING_READY : Nat := 3

end FeatureProcessor

/-- The contents of a `FeatureProcessor`'s table slots at any point of its
lifetime: `empty` right after `__init__` (all slots `None`), or the raw,
preprocessed, or engineered table families.  A stage that raises after
mutating some slots leaves the object observably equivalent (for every later
stage call) to the unmutated family, so no extra constructor is needed. -/
inductive FPTables where
  | empty
  | raw (r : RawTables)
  | pre (p : PreTables)
  | eng (e : EngTables)
deriving DecidableEq, Repr

/-- A `FeatureProcessor` object: its table slots and its `_state` marker. -/
structure FP where
  tables : FPTables
  state : Nat
deriving DecidableEq, Repr

namespace FP

/-- A fresh `FeatureProcessor` (the directory-existence assert of `__init__`
is file-system territory and assumed satisfied): all slots `None`, state
`__INITIALIZATION_READY`. -/
def init : FP := ⟨.empty, FeatureProcessor.INITIALIZATION_READY⟩

/-- `FeatureProcessor.load_raw`: asserts `_state >= __INITIALIZATION_READY`
(vacuous — the marker is never negative), reads the five raw tables (`env`
stands for the CSV contents), and sets the state to `__LOAD_READY` —
whatever the previous state was. -/
def load_raw (env : RawTables) (s : FP) : Except Err FP :=
  if FeatureProcessor.INITIALIZATION_READY ≤ s.state
  then .ok ⟨.raw env, FeatureProcessor.LOAD_READY⟩
  else .error .stageOrder

/-- `FeatureProcessor.pre_process`, object layer: asserts
`_state >= __LOAD_READY`, then runs the table layer.  Re-running it on a
preprocessed or engineered object re-parses the train/test slots but then
raises KeyError when the members re-parse reads the dropped
`registration_init_time` column, leaving `_state` unchanged.  (Running it on
an empty object would fail on `None` slots, but `_state ≥ 1` rules that
out.) -/
def pre_process (s : FP) : Except Err FP :=
  if FeatureProcessor.LOAD_READY ≤ s.state then
    match s.tables with
    | .raw r => (FeatureProcessor.pre_process r).map
        (fun p => ⟨.pre p, FeatureProcessor.PREPROCESS_READY⟩)
    | .empty => .error .typeError
    | _ => .error .keyError
  else .error .stageOrder

/-- `FeatureProcessor.feature_engineering`, object layer: asserts
`_state >= __PREPROCESS_READY`, then runs the table layer.  Re-running it on
an engineered object duplicates the `play_count` column, so the merge
renames both copies with suffixes and the following `df['play_count']`
access raises KeyError; on raw tables the `artist_name` access would raise
KeyError (unreachable: raw tables come with `_state = 1`). -/
def feature_engineering (s : FP) : Except Err FP :=
  if FeatureProcessor.PREPROCESS_READY ≤ s.state then
    match s.tables with
    | .pre p => (FeatureProcessor.feature_engineering p).map
        (fun e => ⟨.eng e, FeatureProcessor.ENGINEERING_READY⟩)
    | .empty => .error .typeError
    | _ => .error .keyError
  else .error .stageOrder

end FP

/-- One stage-method invocation on a `FeatureProcessor` object. -/
inductive StageCall where
  | load (env : RawTables)
  | preprocess
  | engineer
deriving DecidableEq, Repr

/-- Dispatch one stage call to its method. -/
def FP.call (s : FP) : StageCall → Except Err FP
  | .load env => FP.load_raw env s
  | .preprocess => FP.pre_process s
  | .engineer => FP.feature_engineering s

/-- Run a sequence of stage calls on an object; a call that raises leaves the
state marker unchanged (the exception propagates past the assignment), and
its slot mutations are observably irrelevant (see `FPTables`). -/
def FP.run (s : FP) : List StageCall → FP
  | [] => s
  | c :: cs =>
    FP.run (match FP.call s c with
            | .ok s2 => s2
            | .error _ => s) cs

/-! ## spec-modelled comparison variants -/

/-- Modelled from the spec: `pre_process` as claim C1 describes it — the
test-table transform applied to the train table *as it was before its own
transform* ("the stored test table is the result of applying the event-table
transform to the train table as it was before its own transform").  Identical
to `FeatureProcessor.pre_process` except for the argument of the second
transform call. -/
def pre_process_spec_stale_train (r : RawTables) : Except Err PreTables := do
  let train1 ← TrainTestProcessor.parse r.train
  let test1 ← TrainTestProcessor.parse r.train
  let members1 ← MembersProcessor.parse r.members
  let songs1 ← SongsProcessor.parse r.songs
  let extra1 ← SongExtraProcessor.parse r.song_extra
  let songs2 := mergeLeft SongsParsedRow.song_id ExtraParsedRow.song_id songs1 extra1
  let train2 := mergeLeft EventRow.song_id (fun s => s.1.song_id) train1.rows songs2
  let test2 := mergeLeft EventRow.song_id (fun s => s.1.song_id) test1.rows songs2
  let train3 := mergeLeft (fun p => p.1.msno) MembersParsedRow.msno train2 members1
  let test3 := mergeLeft (fun p => p.1.msno) MembersParsedRow.msno test2 members1
  pure { train := train3, test := test3, members := members1
         songs := songs2, song_extra := extra1, comb := train3 ++ test3 }

/-- Modelled from the spec: the evidently-intended `pre_process` that
transforms the *loaded test table* (the behavior claim C1 says the code does
not have). -/
def pre_process_spec_test_input (r : RawTables) : Except Err PreTables := do
  let train1 ← TrainTestProcessor.parse r.train
  let test1 ← TrainTestProcessor.parse r.test
  let members1 ← MembersProcessor.parse r.members
  let songs1 ← SongsProcessor.parse r.songs
  let extra1 ← SongExtraProcessor.parse r.song_extra
  let songs2 := mergeLeft SongsParsedRow.song_id ExtraParsedRow.song_id songs1 extra1
  let train2 := mergeLeft EventRow.song_id (fun s => s.1.song_id) train1.rows songs2
  let test2 := mergeLeft EventRow.song_id (fun s => s.1.song_id) test1.rows songs2
  let train3 := mergeLeft (fun p => p.1.msno) MembersParsedRow.msno train2 members1
  let test3 := mergeLeft (fun p => p.1.msno) MembersParsedRow.msno test2 members1
  pure { train := train3, test := test3, members := members1
         songs := songs2, song_extra := extra1, comb := train3 ++ test3 }

/-- Modelled from the spec (claim C8's reading): the number of distinct
`song_id`s that appear in the reference table with the given
`artist_name`, each counted once. -/
def spec_track_count (ref : List EngRow) (a : String) : Nat :=
  (((ref.filter (fun r => decide (r.artist_name = some a))).map EngRow.song_id).dedup).length

/-! ## null-freeness predicates -/

/-- A merged event row with no null cell: the (filled) source columns of the
event part, a matched songs row with a present `song_length` and a matched
`song_extra` part, and a matched members row with a present
`registered_via`.  Every other column of the three parts is total by
construction of the transforms. -/
def mergedRowNullFree (m : TrainMergedRow) : Bool :=
  !(TrainTestProcessor.rowHasNull m.1.1) &&
  (match m.1.2 with
   | some s => !(SongsProcessor.rowHasNull s.1) && s.2.isSome
   | none => false) &&
  (match m.2 with
   | some mem => !(MembersProcessor.rowHasNull mem)
   | none => false)

/-- Null-freeness of an engineered output row: the three appended counts are
filled with 0 on a merge miss (`fillna(0)`), so only the merged part can
hold nulls. -/
def engOutRowNullFree (e : EngOutRow) : Bool :=
  mergedRowNullFree e.1.1.1

/-- Null-freeness of a whole engineered output table. -/
def engTableNullFree (l : List EngOutRow) : Bool :=
  l.all engOutRowNullFree

/-- Null-freeness of a standalone engineering-stage output row (`EngRow`
base): its nullable columns are the songs-side `artist_name` and
`language`. -/
def engRowSNullFree (r : ((EngRow × Nat) × Nat) × Nat) : Bool :=
  r.1.1.1.artist_name.isSome && r.1.1.1.language.isSome

/-! ## concrete example tables -/

/-- A members row with every cell present. -/
def exMember1 : MembersRawRow :=
  { msno := "u1", gender := some "male", bd := some 30, registered_via := some 7
    registration_init_time := some ⟨2015, 1, 16436⟩
    expiration_date := some ⟨2017, 9, 17400⟩ }

/-- A songs row with every cell present. -/
def exSong1 : SongsRawRow :=
  { song_id := "s1", song_length := some 200000, genre_ids := some "465"
    artist_name := some "ArtistA", composer := some "ArtistA"
    lyricist := none, language := some 3 }

/-- A second songs row with the same `song_id` as `exSong1` (a duplicated
join key). -/
def exSong1dup : SongsRawRow :=
  { song_id := "s1", song_length := some 100000, genre_ids := some "958"
    artist_name := some "ArtistB", composer := none
    lyricist := none, language := some 52 }

/-- A song-provenance row for `"s1"`; the isrc year slice is `"12"`. -/
def exExtra1 : ExtraRawRow :=
  { song_id := "s1", name := some "SongOne", isrc := some "TWUM71200001" }

/-- A train event row for user `"u1"` and song `"s1"`. -/
def exTrainRow : EventRow :=
  { msno := "u1", song_id := "s1", source_system_tab := some "my library"
    source_screen_name := none, source_type := some "local-library"
    target := 1 }

/-- A test event row (no meaningful `target`; the table carrying it has
`hasTarget := false`). -/
def exTestRow : EventRow :=
  { msno := "u1", song_id := "s1", source_system_tab := some "search"
    source_screen_name := some "Search", source_type := some "online-playlist"
    target := 0 }

/-- A consistent five-table input: every event key matches, every songs key
has provenance. -/
def exRaw : RawTables :=
  { train := ⟨[exTrainRow], true⟩, test := ⟨[exTestRow], false⟩
    members := [exMember1], songs := [exSong1], song_extra := [exExtra1] }

/-- Like `exRaw` but the train event references song `"s2"`, which the songs
table does not contain. -/
def exRawUnmatched : RawTables :=
  { train := ⟨[{ exTrainRow with song_id := "s2" }], true⟩
    test := ⟨[exTestRow], false⟩
    members := [exMember1], songs := [exSong1], song_extra := [exExtra1] }

/-- Like `exRaw` but with a duplicated `song_id` in the songs table. -/
def exRawDup : RawTables :=
  { train := ⟨[exTrainRow], true⟩, test := ⟨[exTestRow], false⟩
    members := [exMember1], songs := [exSong1, exSong1dup]
    song_extra := [exExtra1] }

/-- A songs row whose `song_length` is missing: the fills leave the null in
place and the closing assert trips. -/
def exSongNoLength : SongsRawRow :=
  { song_id := "s9", song_length := none, genre_ids := some "465"
    artist_name := some "ArtistA", composer := some "ArtistA"
    lyricist := none, language := some 3 }

/-- A standalone engineering target row whose songs-side attributes are null
(its song found no match in the songs merge). -/
def exEngNullRow : EngRow :=
  { song_id := "s1", artist_name := none, language := none, target := 1 }

/-- A standalone engineering reference row. -/
def exEngRefRow : EngRow :=
  { song_id := "s1", artist_name := some "A", language := some (.num 3), target := 1 }

/-- Reference rows for the C8 counterexample: song `"s1"` appears twice,
first attributed to artist `"A"`, then to artist `"B"`. -/
def exEngRefA : EngRow :=
  { song_id := "s1", artist_name := some "A", language := some (.num 3), target := 1 }

/-- Second occurrence of song `"s1"`, now attributed to `"B"`. -/
def exEngRefB : EngRow :=
  { song_id := "s1", artist_name := some "B", language := some (.num 3), target := 0 }

/-- A target row for artist `"B"`. -/
def exEngTargetB : EngRow :=
  { song_id := "sX", artist_name := some "B", language := some (.num 3), target := 1 }

/-! ## closed forms for the engineering columns -/

/-- The play count the code produces for a song key: the number of reference
rows carrying it. -/
def playCountOf {σ : Type} [EngCols σ] (ref : List σ) (k : String) : Nat :=
  (ref.filter (fun s => decide (EngCols.song_id s = k))).length

/-- The track count the code produces for a songs-side artist cell: the
number of song keys whose *first* reference occurrence carries this artist;
0 for a null artist. -/
def trackCountOf {σ : Type} [EngCols σ] (ref : List σ) (a : Option String) : Nat :=
  match a with
  | none => 0
  | some a =>
    ((dropDupsBy EngCols.song_id [] ref).filter
      (fun s => decide (EngCols.artist_name s = some a))).length

/-- The cover-language count the code produces for a songs-side artist cell:
the number of distinct `(artist_name, language)` reference pairs carrying
this artist; 0 for a null artist. -/
def coverCountOf {σ : Type} [EngCols σ] (ref : List σ) (a : Option String) : Nat :=
  match a with
  | none => 0
  | some a =>
    ((dropDupsBy id []
        (ref.map (fun r => (EngCols.artist_name r, EngCols.language r)))).filter
      (fun p => decide (p.1 = some a))).length

/-! ## theorems: generic merge lemmas -/

theorem filter_key_eq_nil {R K : Type} [DecidableEq K] (rk : R → K)
    (right : List R) (k : K) (h : k ∉ right.map rk) :
    right.filter (fun r => decide (rk r = k)) = [] := by
  induction right with
  | nil => rfl
  | cons r rs ih =>
    simp only [List.map_cons, List.mem_cons, not_or] at h
    simp only [List.filter_cons]
    rw [if_neg (by simpa using fun he => h.1 he.symm)]
    exact ih h.2

theorem filter_key_of_nodup {R K : Type} [DecidableEq K] (rk : R → K)
    (right : List R) (h : (right.map rk).Nodup) (k : K) :
    right.filter (fun r => decide (rk r = k)) =
      (right.find? (fun r => decide (rk r = k))).toList := by
  induction right with
  | nil => rfl
  | cons r rs ih =>
    simp only [List.map_cons, List.nodup_cons] at h
    by_cases hrk : rk r = k
    · simp only [List.filter_cons, List.find?_cons, decide_eq_true hrk]
      rw [filter_key_eq_nil rk rs k (hrk ▸ h.1)]
      rfl
    · simp only [List.filter_cons, List.find?_cons, decide_eq_false hrk]
      exact ih h.2

theorem mergeLeft_eq_map_find? {L R K : Type} [DecidableEq K] (lk : L → K) (rk : R → K)
    (left : List L) (right : List R) (h : (right.map rk).Nodup) :
    mergeLeft lk rk left right =
      left.map (fun l => (l, right.find? (fun r => decide (rk r = lk l)))) := by
  induction left with
  | nil => rfl
  | cons l ls ih =>
    simp only [mergeLeft, List.flatMap_cons, List.map_cons] at *
    rw [ih, filter_key_of_nodup rk right h (lk l)]
    cases hf : right.find? (fun r => decide (rk r = lk l)) <;> simp

theorem length_mergeLeft {L R K : Type} [DecidableEq K] (lk : L → K) (rk : R → K)
    (left : List L) (right : List R) (h : (right.map rk).Nodup) :
    (mergeLeft lk rk left right).length = left.length := by
  rw [mergeLeft_eq_map_find? lk rk left right h, List.length_map]

theorem find?_keyMap {K β : Type} [DecidableEq K] (keys : List K) (f : K → β) (a : K) :
    (keys.map (fun k => (k, f k))).find? (fun p => decide (p.1 = a)) =
      if a ∈ keys then some (a, f a) else none := by
  induction keys with
  | nil => rfl
  | cons k ks ih =>
    by_cases hk : k = a
    · subst hk
      simp [List.find?_cons]
    · simp only [List.map_cons, List.find?_cons, decide_eq_false hk]
      rw [ih]
      by_cases ha : a ∈ ks
      · rw [if_pos ha, if_pos (List.mem_cons.mpr (Or.inr ha))]
      · rw [if_neg ha, if_neg (fun hmem => by
          rcases List.mem_cons.mp hmem with h1 | h1
          · exact hk h1.symm
          · exact ha h1)]

theorem fst_mem_of_mem_mergeLeft {L R K : Type} [DecidableEq K] {lk : L → K} {rk : R → K}
    {left : List L} {right : List R} {p : L × Option R}
    (h : p ∈ mergeLeft lk rk left right) : p.1 ∈ left := by
  simp only [mergeLeft, List.mem_flatMap] at h
  obtain ⟨l, hl, hp⟩ := h
  cases hf : right.filter (fun r => decide (rk r = lk l)) with
  | nil =>
    rw [hf] at hp
    simp only [List.mem_singleton] at hp
    subst hp
    exact hl
  | cons m ms =>
    rw [hf] at hp
    simp only [List.mem_map] at hp
    obtain ⟨r, _, hr⟩ := hp
    rw [← hr]
    exact hl

theorem no_match_of_none_mem_mergeLeft {L R K : Type} [DecidableEq K] {lk : L → K}
    {rk : R → K} {left : List L} {right : List R} {l : L}
    (h : (l, (none : Option R)) ∈ mergeLeft lk rk left right) :
    ∀ r ∈ right, rk r ≠ lk l := by
  simp only [mergeLeft, List.mem_flatMap] at h
  obtain ⟨l2, _, hp⟩ := h
  cases hf : right.filter (fun r => decide (rk r = lk l2)) with
  | nil =>
    rw [hf] at hp
    simp only [List.mem_singleton, Prod.mk.injEq] at hp
    intro r hr he
    have : r ∈ right.filter (fun r => decide (rk r = lk l2)) := by
      rw [List.mem_filter]
      exact ⟨hr, by simp [hp.1 ▸ he]⟩
    rw [hf] at this
    exact absurd this (List.not_mem_nil r)
  | cons m ms =>
    rw [hf] at hp
    simp only [List.mem_map, Prod.mk.injEq] at hp
    obtain ⟨r, _, _, hco⟩ := hp
    exact absurd hco (by simp)

theorem match_of_some_mem_mergeLeft {L R K : Type} [DecidableEq K] {lk : L → K}
    {rk : R → K} {left : List L} {right : List R} {l : L} {r : R}
    (h : (l, some r) ∈ mergeLeft lk rk left right) : r ∈ right ∧ rk r = lk l := by
  simp only [mergeLeft, List.mem_flatMap] at h
  obtain ⟨l2, _, hp⟩ := h
  cases hf : right.filter (fun r => decide (rk r = lk l2)) with
  | nil =>
    rw [hf] at hp
    simp only [List.mem_singleton, Prod.mk.injEq] at hp
    exact absurd hp.2 (by simp)
  | cons m ms =>
    rw [hf] at hp
    simp only [List.mem_map, Prod.mk.injEq] at hp
    obtain ⟨r2, hr2, hl2, hr2e⟩ := hp
    have hr2f : r2 ∈ right.filter (fun x => decide (rk x = lk l2)) := by
      rw [hf]; exact List.mem_cons.mpr (by simpa using hr2)
    rw [List.mem_filter] at hr2f
    obtain rfl : r2 = r := Option.some.inj hr2e
    subst hl2
    exact ⟨hr2f.1, by simpa using hr2f.2⟩

/-! ## theorems: engineering transformer closed forms -/

theorem engCols_pair_song_id {ρ : Type} [EngCols ρ] (p : ρ × Nat) :
    EngCols.song_id p = EngCols.song_id p.1 := rfl

theorem engCols_pair_artist_name {ρ : Type} [EngCols ρ] (p : ρ × Nat) :
    EngCols.artist_name p = EngCols.artist_name p.1 := rfl

theorem engCols_pair_language {ρ : Type} [EngCols ρ] (p : ρ × Nat) :
    EngCols.language p = EngCols.language p.1 := rfl

theorem count_map_eq_length_filter {α β : Type} [DecidableEq β] (f : α → β)
    (l : List α) (k : β) :
    (l.map f).count k = (l.filter (fun x => decide (f x = k))).length := by
  induction l with
  | nil => rfl
  | cons x xs ih =>
    by_cases h : f x = k
    · simp [List.count_cons, List.filter_cons, h, ih]
    · simp [List.count_cons, List.filter_cons, h, ih]

theorem find?_keyMap_some {K β : Type} [DecidableEq K] (keys : List K) (f : K → β) (a : K) :
    (keys.map (fun k => (k, f k))).find? (fun p => decide (some p.1 = some a)) =
      if a ∈ keys then some (a, f a) else none := by
  have : (fun (p : K × β) => decide (some p.1 = some a)) =
      (fun (p : K × β) => decide (p.1 = a)) := by
    funext p
    simp
  rw [this, find?_keyMap]

theorem generate_play_count_eq {ρ σ : Type} [EngCols ρ] [EngCols σ]
    (ref_df : List σ) (df : List ρ) :
    EngineeringProcessor.generate_play_count ref_df df =
      df.map (fun r => (r, playCountOf ref_df (EngCols.song_id r))) := by
  have hn : (((valueCounts (ref_df.map (EngCols.song_id : σ → String)))).map Prod.fst).Nodup := by
    simp only [valueCounts, List.map_map, Function.comp_def]
    simpa using List.nodup_dedup (ref_df.map (EngCols.song_id : σ → String))
  simp only [EngineeringProcessor.generate_play_count]
  rw [mergeLeft_eq_map_find? _ _ _ _ hn, List.map_map]
  refine List.map_congr_left fun r _ => ?_
  simp only [Function.comp_def, valueCounts, find?_keyMap]
  by_cases hmem : EngCols.song_id r ∈ (ref_df.map (EngCols.song_id : σ → String)).dedup
  · rw [if_pos hmem]
    simp only [Option.map_some', Option.getD_some]
    rw [playCountOf, ← count_map_eq_length_filter]
  · rw [if_neg hmem]
    simp only [Option.map_none', Option.getD_none]
    rw [playCountOf, ← count_map_eq_length_filter]
    exact congrArg (fun n => (r, n))
      (List.count_eq_zero.mpr (fun hc => hmem (List.mem_dedup.mpr hc))).symm

theorem keyMap_fst_nodup {K β : Type} [DecidableEq K] (keys : List K)
    (hk : keys.Nodup) (f : K → β) :
    ((keys.map (fun k => (k, f k))).map Prod.fst).Nodup := by
  simp only [List.map_map, Function.comp_def]
  simpa using hk

theorem mergeLeft_keyMap {L K β : Type} [DecidableEq K] (lk : L → K) (keys : List K)
    (hk : keys.Nodup) (f : K → β) (left : List L) :
    mergeLeft lk (fun t => t.1) left (keys.map (fun k => (k, f k))) =
      left.map (fun l => (l, if lk l ∈ keys then some (lk l, f (lk l)) else none)) := by
  rw [mergeLeft_eq_map_find? _ _ _ _ (keyMap_fst_nodup keys hk f)]
  refine List.map_congr_left fun l _ => ?_
  rw [find?_keyMap]

theorem mergeLeft_keyMapSome {L K β : Type} [DecidableEq K] (lk : L → Option K)
    (keys : List K) (hk : keys.Nodup) (f : K → β) (left : List L) :
    mergeLeft lk (fun t => some t.1) left (keys.map (fun k => (k, f k))) =
      left.map (fun l => (l,
        match lk l with
        | none => none
        | some a => if a ∈ keys then some (a, f a) else none)) := by
  have hsn : (((keys.map (fun k => (k, f k))).map (fun t => some t.1))).Nodup := by
    simp only [List.map_map, Function.comp_def]
    exact hk.map (fun a b hab => Option.some.inj hab)
  rw [mergeLeft_eq_map_find? _ _ _ _ hsn]
  refine List.map_congr_left fun l _ => ?_
  cases ha : lk l with
  | none =>
    rw [List.find?_eq_none.mpr (fun p _ => by simp)]
  | some a =>
    rw [show (fun (p : K × β) => decide (some p.1 = some a)) =
      (fun (p : K × β) => decide (p.1 = a)) from by funext p; simp]
    rw [find?_keyMap]

theorem generate_track_count_eq {ρ σ : Type} [EngCols ρ] [EngCols σ]
    (ref_df : List σ) (df : List ρ) :
    EngineeringProcessor.generate_track_count ref_df true df =
      .ok (df.map (fun r => (r, trackCountOf ref_df (EngCols.artist_name r)))) := by
  simp only [EngineeringProcessor.generate_track_count]
  rw [if_neg (by decide)]
  rw [mergeLeft_keyMap (fun (t : String × Rat × Nat) => t.1) _ (List.nodup_dedup _) _ _]
  simp only [List.map_map, Function.comp_def]
  rw [mergeLeft_keyMapSome EngCols.artist_name _ (List.nodup_dedup _) _ _]
  simp only [List.map_map, Function.comp_def]
  refine congrArg Except.ok (List.map_congr_left fun r hr => ?_)
  cases ha : EngCols.artist_name r with
  | none =>
    simp [trackCountOf]
  | some a =>
    have hmem : a ∈ (df.filterMap (EngCols.artist_name : ρ → Option String)).dedup :=
      List.mem_dedup.mpr (List.mem_filterMap.mpr ⟨r, hr, ha⟩)
    simp only [if_pos hmem, Option.some_bind]
    by_cases hta : a ∈ ((dropDupsBy (EngCols.song_id : σ → String) [] ref_df).filterMap
        EngCols.artist_name).dedup
    · rw [if_pos hta]
      simp [trackCountOf]
    · rw [if_neg hta]
      simp only [Option.map_none', Option.getD_none]
      have hnil : ((dropDupsBy (EngCols.song_id : σ → String) [] ref_df).filter
          (fun s => decide (EngCols.artist_name s = some a))) = [] := by
        refine List.filter_eq_nil_iff.mpr fun s hs => ?_
        simp only [decide_eq_true_eq]
        intro hsa
        exact hta (List.mem_dedup.mpr (List.mem_filterMap.mpr ⟨s, hs, hsa⟩))
      simp [trackCountOf, hnil]

theorem generate_cover_lang_eq {ρ σ : Type} [EngCols ρ] [EngCols σ]
    (ref_df : List σ) (df : List ρ) :
    EngineeringProcessor.generate_cover_lang ref_df df =
      df.map (fun r => (r, coverCountOf ref_df (EngCols.artist_name r))) := by
  simp only [EngineeringProcessor.generate_cover_lang]
  rw [mergeLeft_keyMapSome EngCols.artist_name _ (List.nodup_dedup _) _ _]
  simp only [List.map_map, Function.comp_def]
  refine List.map_congr_left fun r hr => ?_
  cases ha : EngCols.artist_name r with
  | none =>
    simp [coverCountOf]
  | some a =>
    by_cases hca : a ∈ ((dropDupsBy (id : Option String × Option LangV → Option String × Option LangV) []
        (ref_df.map (fun x => (EngCols.artist_name x, EngCols.language x)))).filterMap Prod.fst).dedup
    · simp only [if_pos hca]
      simp [coverCountOf]
    · simp only [if_neg hca]
      have hnil : ((dropDupsBy (id : Option String × Option LangV → Option String × Option LangV) []
          (ref_df.map (fun x => (EngCols.artist_name x, EngCols.language x)))).filter
            (fun p => decide (p.1 = some a))) = [] := by
        refine List.filter_eq_nil_iff.mpr fun p hp => ?_
        simp only [decide_eq_true_eq]
        intro hpa
        exact hca (List.mem_dedup.mpr (List.mem_filterMap.mpr ⟨p, hp, hpa⟩))
      simp [coverCountOf, hnil]

theorem engineering_parse_noTarget {ρ σ : Type} [EngCols ρ] [EngCols σ]
    (ref_df : List σ) (df : List ρ) :
    EngineeringProcessor.parse ref_df false df = .error .keyError := rfl

theorem engineering_parse_eq {ρ σ : Type} [EngCols ρ] [EngCols σ]
    (ref_df : List σ) (df : List ρ) :
    EngineeringProcessor.parse ref_df true df =
      .ok (df.map (fun r =>
        (((r, playCountOf ref_df (EngCols.song_id r)),
          trackCountOf ref_df (EngCols.artist_name r)),
         coverCountOf ref_df (EngCols.artist_name r)))) := by
  simp only [EngineeringProcessor.parse, generate_play_count_eq, generate_track_count_eq,
    generate_cover_lang_eq, engCols_pair_song_id, engCols_pair_artist_name,
    engCols_pair_language]
  simp [Bind.bind, Except.bind, Pure.pure, Except.pure, List.map_map, Function.comp_def]

/-! ## theorems: train/test transformer -/

theorem tt_fillRow_finishRow (r : EventRow) (o : Option (String × Rat × Nat)) :
    TrainTestProcessor.fillRow
        (TrainTestProcessor.finishRow (TrainTestProcessor.fillRow r, o)) =
      TrainTestProcessor.finishRow (TrainTestProcessor.fillRow r, o) := by
  cases r
  simp [TrainTestProcessor.fillRow, TrainTestProcessor.finishRow]

theorem tt_smKey_finishRow (p : EventRow × Option (String × Rat × Nat)) :
    TrainTestProcessor.smKey (TrainTestProcessor.finishRow p) =
      TrainTestProcessor.smKey p.1 := rfl

theorem tt_target_finishRow (p : EventRow × Option (String × Rat × Nat)) :
    (TrainTestProcessor.finishRow p).target = p.1.target := rfl

theorem tt_finishRow_finishRow (r : EventRow) (o : Option (String × Rat × Nat)) :
    TrainTestProcessor.finishRow (TrainTestProcessor.finishRow (r, o), o) =
      TrainTestProcessor.finishRow (r, o) := by
  cases r
  simp [TrainTestProcessor.finishRow]

theorem tt_countDF_map (rows : List EventRow) (g : EventRow → EventRow)
    (hk : ∀ r, TrainTestProcessor.smKey (g r) = TrainTestProcessor.smKey r)
    (ht : ∀ r, (g r).target = r.target) :
    TrainTestProcessor.countDF (rows.map g) = TrainTestProcessor.countDF rows := by
  unfold TrainTestProcessor.countDF
  have hkeys : (rows.map g).map TrainTestProcessor.smKey =
      rows.map TrainTestProcessor.smKey := by
    rw [List.map_map]
    exact List.map_congr_left fun r _ => hk r
  rw [hkeys]
  refine List.map_congr_left fun a _ => ?_
  dsimp only
  have hfil : (rows.map g).filter (fun r => decide (TrainTestProcessor.smKey r = a)) =
      (rows.filter (fun r => decide (TrainTestProcessor.smKey r = a))).map g := by
    rw [List.filter_map]
    refine congrArg (List.map g) (List.filter_congr fun r _ => ?_)
    simp [Function.comp_def, hk r]
  rw [hfil, List.length_map, List.map_map]
  have hsum : (rows.filter (fun r => decide (TrainTestProcessor.smKey r = a))).map
        (EventRow.target ∘ g) =
      (rows.filter (fun r => decide (TrainTestProcessor.smKey r = a))).map
        EventRow.target :=
    List.map_congr_left fun r _ => ht r
  rw [hsum]

theorem tt_outRows_eq (rows : List EventRow) :
    TrainTestProcessor.outRows rows =
      (rows.map TrainTestProcessor.fillRow).map (fun r =>
        TrainTestProcessor.finishRow
          (r, (TrainTestProcessor.countDF (rows.map TrainTestProcessor.fillRow)).find?
              (fun t => decide (t.1 = TrainTestProcessor.smKey r)))) := by
  have hn1 : ((TrainTestProcessor.countDF (rows.map TrainTestProcessor.fillRow)).map
      (fun (t : String × Rat × Nat) => t.1)).Nodup := by
    simp only [TrainTestProcessor.countDF, List.map_map, Function.comp_def]
    simpa using List.nodup_dedup
      ((rows.map TrainTestProcessor.fillRow).map TrainTestProcessor.smKey)
  unfold TrainTestProcessor.outRows
  dsimp only
  rw [mergeLeft_eq_map_find? _ _ _ _ hn1, List.map_map]
  simp only [Function.comp_def]

theorem tt_outRows_idem (rows : List EventRow) :
    TrainTestProcessor.outRows (TrainTestProcessor.outRows rows) =
      TrainTestProcessor.outRows rows := by
  rw [tt_outRows_eq rows]
  rw [tt_outRows_eq]
  have hXfill : ((rows.map TrainTestProcessor.fillRow).map (fun r =>
      TrainTestProcessor.finishRow
        (r, (TrainTestProcessor.countDF (rows.map TrainTestProcessor.fillRow)).find?
          (fun t => decide (t.1 = TrainTestProcessor.smKey r))))).map
            TrainTestProcessor.fillRow =
      (rows.map TrainTestProcessor.fillRow).map (fun r =>
        TrainTestProcessor.finishRow
          (r, (TrainTestProcessor.countDF (rows.map TrainTestProcessor.fillRow)).find?
            (fun t => decide (t.1 = TrainTestProcessor.smKey r)))) := by
    rw [List.map_map]
    refine List.map_congr_left fun r hr => ?_
    obtain ⟨r0, _, rfl⟩ := List.mem_map.mp hr
    exact tt_fillRow_finishRow r0 _
  rw [hXfill]
  have hcount : TrainTestProcessor.countDF
      ((rows.map TrainTestProcessor.fillRow).map (fun r =>
        TrainTestProcessor.finishRow
          (r, (TrainTestProcessor.countDF (rows.map TrainTestProcessor.fillRow)).find?
            (fun t => decide (t.1 = TrainTestProcessor.smKey r))))) =
      TrainTestProcessor.countDF (rows.map TrainTestProcessor.fillRow) :=
    tt_countDF_map _ _ (fun r => tt_smKey_finishRow _) (fun r => tt_target_finishRow _)
  rw [hcount, List.map_map]
  refine List.map_congr_left fun r _ => ?_
  simp only [Function.comp_def, tt_smKey_finishRow]
  exact tt_finishRow_finishRow r _

theorem tt_parse_ok_shape {df : EventDF} {out : EventDF}
    (h : TrainTestProcessor.parse df = .ok out) :
    df.hasTarget = true ∧
      out = ⟨TrainTestProcessor.outRows df.rows, true⟩ ∧
      (TrainTestProcessor.outRows df.rows).any TrainTestProcessor.rowHasNull = false := by
  unfold TrainTestProcessor.parse at h
  by_cases hT : df.hasTarget = false
  · rw [if_pos hT] at h
    exact absurd h (by simp)
  · rw [if_neg hT] at h
    have hT2 : df.hasTarget = true := by
      cases hb : df.hasTarget
      · exact absurd hb hT
      · rfl
    by_cases hnull :
        (TrainTestProcessor.outRows df.rows).any TrainTestProcessor.rowHasNull = true
    · rw [if_pos hnull] at h
      exact absurd h (by simp)
    · rw [if_neg hnull] at h
      refine ⟨hT2, ?_, by simpa using hnull⟩
      have := Except.ok.inj h
      rw [← this, hT2]

theorem tt_parse_ok_of (df : EventDF) (hT : df.hasTarget = true)
    (hnull : (TrainTestProcessor.outRows df.rows).any TrainTestProcessor.rowHasNull = false) :
    TrainTestProcessor.parse df = .ok ⟨TrainTestProcessor.outRows df.rows, true⟩ := by
  unfold TrainTestProcessor.parse
  rw [if_neg (by simp [hT])]
  rw [if_neg (by simp [hnull])]
  rw [hT]

theorem tt_parse_idem {df : EventDF} {out : EventDF}
    (h : TrainTestProcessor.parse df = .ok out) :
    TrainTestProcessor.parse out = .ok out := by
  obtain ⟨hT, rfl, hnull⟩ := tt_parse_ok_shape h
  have h2 := tt_parse_ok_of ⟨TrainTestProcessor.outRows df.rows, true⟩ rfl
    (by simpa [tt_outRows_idem] using hnull)
  simpa [tt_outRows_idem] using h2

/-! ## claim theorems -/

/-- C1: the test-table transform call in `pre_process` operates on the train
table, not the test table; because the event transform is idempotent, the
stored test table equals the transform of the train table as it was before
its own transform (for every input, `pre_process` coincides with the
spec-modelled stale-train variant), and it is not the transform of the
loaded test table (witnessed at `exRaw`). -/
theorem C1_test_transform_stale_train :
    (∀ r : RawTables, FeatureProcessor.pre_process r = pre_process_spec_stale_train r) ∧
      FeatureProcessor.pre_process exRaw ≠ pre_process_spec_test_input exRaw := by
  constructor
  · intro r
    unfold FeatureProcessor.pre_process pre_process_spec_stale_train
    cases h : TrainTestProcessor.parse r.train with
    | error e => rfl
    | ok t =>
      have hidem := tt_parse_idem h
      simp only [Bind.bind, Except.bind]
      rw [hidem]
  · intro hEq
    have h2 : (FeatureProcessor.pre_process exRaw).isOk = true := by decide
    have h3 : (pre_process_spec_test_input exRaw).isOk = false := by decide
    rw [hEq] at h2
    rw [h2] at h3
    exact Bool.noConfusion h3

/-! ## theorems: per-table transformer shapes -/

theorem songs_parse_ok_shape {df : List SongsRawRow} {out : List SongsParsedRow}
    (h : SongsProcessor.parse df = .ok out) :
    out = df.map SongsProcessor.parseRow ∧
      out.any SongsProcessor.rowHasNull = false := by
  unfold SongsProcessor.parse at h
  by_cases hnull : (df.map SongsProcessor.parseRow).any SongsProcessor.rowHasNull = true
  · rw [if_pos hnull] at h
    exact absurd h (by simp)
  · rw [if_neg hnull] at h
    have := Except.ok.inj h
    subst this
    exact ⟨rfl, by simpa using hnull⟩

theorem members_parse_ok_shape {df : List MembersRawRow} {out : List MembersParsedRow}
    (h : MembersProcessor.parse df = .ok out) :
    out = df.map MembersProcessor.parseRow ∧
      out.any MembersProcessor.rowHasNull = false := by
  unfold MembersProcessor.parse at h
  by_cases hd : df.any (fun r => r.registration_init_time.isNone ||
      r.expiration_date.isNone) = true
  · rw [if_pos hd] at h
    exact absurd h (by simp)
  · rw [if_neg hd] at h
    by_cases hnull : (df.map MembersProcessor.parseRow).any MembersProcessor.rowHasNull = true
    · rw [if_pos hnull] at h
      exact absurd h (by simp)
    · rw [if_neg hnull] at h
      have := Except.ok.inj h
      subst this
      exact ⟨rfl, by simpa using hnull⟩

theorem extra_parse_ok_shape :
    ∀ {df : List ExtraRawRow} {out : List ExtraParsedRow},
      SongExtraProcessor.parse df = .ok out →
      out.map ExtraParsedRow.song_id = df.map ExtraRawRow.song_id := by
  intro df
  induction df with
  | nil =>
    intro out h
    unfold SongExtraProcessor.parse at h
    have : [] = out := Except.ok.inj h
    subst this
    rfl
  | cons r rs ih =>
    intro out h
    unfold SongExtraProcessor.parse at h
    cases hy : SongExtraProcessor.transform_isrc_to_year r.isrc with
    | error e =>
      rw [hy] at h
      exact absurd h (by simp [Bind.bind, Except.bind])
    | ok y =>
      rw [hy] at h
      cases hm : SongExtraProcessor.parse rs with
      | error e =>
        rw [hm] at h
        exact absurd h (by simp [Bind.bind, Except.bind])
      | ok os =>
        rw [hm] at h
        simp only [Bind.bind, Except.bind, Pure.pure, Except.pure] at h
        have hout := Except.ok.inj h
        subst hout
        simp [ih hm]

theorem tt_outRows_map_song_id (rows : List EventRow) :
    (TrainTestProcessor.outRows rows).map EventRow.song_id =
      rows.map EventRow.song_id := by
  rw [tt_outRows_eq, List.map_map, List.map_map]
  refine List.map_congr_left fun r _ => rfl

theorem tt_outRows_map_msno (rows : List EventRow) :
    (TrainTestProcessor.outRows rows).map EventRow.msno = rows.map EventRow.msno := by
  rw [tt_outRows_eq, List.map_map, List.map_map]
  refine List.map_congr_left fun r _ => rfl

theorem tt_outRows_length (rows : List EventRow) :
    (TrainTestProcessor.outRows rows).length = rows.length := by
  rw [tt_outRows_eq, List.length_map, List.length_map]

theorem pre_process_ok_shape {r : RawTables} {p : PreTables}
    (hp : FeatureProcessor.pre_process r = .ok p) :
    ∃ (t1 : EventDF) (m1 : List MembersParsedRow) (s1 : List SongsParsedRow)
      (e1 : List ExtraParsedRow),
      TrainTestProcessor.parse r.train = .ok t1 ∧
      MembersProcessor.parse r.members = .ok m1 ∧
      SongsProcessor.parse r.songs = .ok s1 ∧
      SongExtraProcessor.parse r.song_extra = .ok e1 ∧
      p = { train := mergeLeft (fun q => q.1.msno) MembersParsedRow.msno
              (mergeLeft EventRow.song_id (fun s => s.1.song_id) t1.rows
                (mergeLeft SongsParsedRow.song_id ExtraParsedRow.song_id s1 e1)) m1
            test := mergeLeft (fun q => q.1.msno) MembersParsedRow.msno
              (mergeLeft EventRow.song_id (fun s => s.1.song_id) t1.rows
                (mergeLeft SongsParsedRow.song_id ExtraParsedRow.song_id s1 e1)) m1
            members := m1
            songs := mergeLeft SongsParsedRow.song_id ExtraParsedRow.song_id s1 e1
            song_extra := e1
            comb := mergeLeft (fun q => q.1.msno) MembersParsedRow.msno
                (mergeLeft EventRow.song_id (fun s => s.1.song_id) t1.rows
                  (mergeLeft SongsParsedRow.song_id ExtraParsedRow.song_id s1 e1)) m1 ++
              mergeLeft (fun q => q.1.msno) MembersParsedRow.msno
                (mergeLeft EventRow.song_id (fun s => s.1.song_id) t1.rows
                  (mergeLeft SongsParsedRow.song_id ExtraParsedRow.song_id s1 e1)) m1 } := by
  unfold FeatureProcessor.pre_process at hp
  cases h1 : TrainTestProcessor.parse r.train with
  | error e =>
    rw [h1] at hp
    exact absurd hp (by simp [Bind.bind, Except.bind])
  | ok t1 =>
    rw [h1] at hp
    simp only [Bind.bind, Except.bind] at hp
    rw [tt_parse_idem h1] at hp
    cases h3 : MembersProcessor.parse r.members with
    | error e =>
      rw [h3] at hp
      exact absurd hp (by simp)
    | ok m1 =>
      rw [h3] at hp
      cases h4 : SongsProcessor.parse r.songs with
      | error e =>
        rw [h4] at hp
        exact absurd hp (by simp)
      | ok s1 =>
        rw [h4] at hp
        cases h5 : SongExtraProcessor.parse r.song_extra with
        | error e =>
          rw [h5] at hp
          exact absurd hp (by simp)
        | ok e1 =>
          rw [h5] at hp
          simp only [Pure.pure, Except.pure] at hp
          exact ⟨t1, m1, s1, e1, rfl, rfl, rfl, rfl, (Except.ok.inj hp).symm⟩

theorem exists_pair_mem_mergeLeft {L R K : Type} [DecidableEq K] (lk : L → K)
    (rk : R → K) {left : List L} (right : List R) {l : L} (hl : l ∈ left) :
    ∃ o, (l, o) ∈ mergeLeft lk rk left right := by
  cases hf : right.filter (fun r => decide (rk r = lk l)) with
  | nil =>
    refine ⟨none, List.mem_flatMap.mpr ⟨l, hl, ?_⟩⟩
    rw [hf]
    simp
  | cons m ms =>
    refine ⟨some m, List.mem_flatMap.mpr ⟨l, hl, ?_⟩⟩
    rw [hf]
    exact List.mem_map.mpr ⟨m, List.mem_cons_self m ms, rfl⟩

theorem pre_process_ok_nullfree {r : RawTables} {p : PreTables}
    (hp : FeatureProcessor.pre_process r = .ok p)
    (hsongs : ∀ e ∈ r.train.rows, e.song_id ∈ r.songs.map SongsRawRow.song_id)
    (hextra : ∀ s ∈ r.songs, s.song_id ∈ r.song_extra.map ExtraRawRow.song_id)
    (hmem : ∀ e ∈ r.train.rows, e.msno ∈ r.members.map MembersRawRow.msno) :
    p.train.all mergedRowNullFree = true ∧ p.test.all mergedRowNullFree = true := by
  obtain ⟨t1, m1, s1, e1, h1, h3, h4, h5, rfl⟩ := pre_process_ok_shape hp
  obtain ⟨hT1, ht1eq, ht1null⟩ := tt_parse_ok_shape h1
  obtain ⟨hm1eq, hm1null⟩ := members_parse_ok_shape h3
  obtain ⟨hs1eq, hs1null⟩ := songs_parse_ok_shape h4
  have he1ids := extra_parse_ok_shape h5
  suffices hall : (mergeLeft (fun q => q.1.msno) MembersParsedRow.msno
      (mergeLeft EventRow.song_id (fun s => s.1.song_id) t1.rows
        (mergeLeft SongsParsedRow.song_id ExtraParsedRow.song_id s1 e1)) m1).all
      mergedRowNullFree = true by
    exact ⟨hall, hall⟩
  rw [List.all_eq_true]
  intro x hx
  obtain ⟨y, om⟩ := x
  have hyx2 : y ∈ mergeLeft EventRow.song_id (fun s => s.1.song_id) t1.rows
      (mergeLeft SongsParsedRow.song_id ExtraParsedRow.song_id s1 e1) :=
    fst_mem_of_mem_mergeLeft hx
  obtain ⟨ev, os⟩ := y
  have hev : ev ∈ t1.rows := fst_mem_of_mem_mergeLeft hyx2
  -- the event part carries no null: the transformer's closing assert passed
  have hevnull : TrainTestProcessor.rowHasNull ev = false := by
    rw [ht1eq] at hev
    rcases List.any_eq_false.mp ht1null ev hev with h
    simpa using h
  -- the original event row behind `ev`, for the key-coverage hypotheses
  have hsid : ev.song_id ∈ r.train.rows.map EventRow.song_id := by
    have : ev.song_id ∈ t1.rows.map EventRow.song_id :=
      List.mem_map.mpr ⟨ev, hev, rfl⟩
    rw [ht1eq] at this
    simpa [tt_outRows_map_song_id] using this
  have hmsno : ev.msno ∈ r.train.rows.map EventRow.msno := by
    have : ev.msno ∈ t1.rows.map EventRow.msno :=
      List.mem_map.mpr ⟨ev, hev, rfl⟩
    rw [ht1eq] at this
    simpa [tt_outRows_map_msno] using this
  -- the songs side is matched
  cases os with
  | none =>
    exfalso
    have hno := no_match_of_none_mem_mergeLeft hyx2
    obtain ⟨e0, he0, he0id⟩ := List.mem_map.mp hsid
    obtain ⟨sid0, hsid0mem, hsid0⟩ := List.mem_map.mp (hsongs e0 he0)
    have hspmem : SongsProcessor.parseRow sid0 ∈ s1 := by
      rw [hs1eq]
      exact List.mem_map.mpr ⟨sid0, hsid0mem, rfl⟩
    obtain ⟨o2, ho2⟩ := exists_pair_mem_mergeLeft SongsParsedRow.song_id
      ExtraParsedRow.song_id e1 hspmem
    refine hno (SongsProcessor.parseRow sid0, o2) ho2 ?_
    show (SongsProcessor.parseRow sid0).song_id = ev.song_id
    have : (SongsProcessor.parseRow sid0).song_id = sid0.song_id := rfl
    rw [this, hsid0, he0id]
  | some sm =>
    have hsmm := match_of_some_mem_mergeLeft hyx2
    obtain ⟨sp, oe⟩ := sm
    have hsp : sp ∈ s1 := fst_mem_of_mem_mergeLeft hsmm.1
    have hspnull : SongsProcessor.rowHasNull sp = false := by
      rcases List.any_eq_false.mp hs1null sp hsp with h
      simpa using h
    cases oe with
    | none =>
      exfalso
      have hno := no_match_of_none_mem_mergeLeft hsmm.1
      obtain ⟨s0, hs0, hs0eq⟩ : ∃ s0 ∈ r.songs, SongsProcessor.parseRow s0 = sp := by
        rw [hs1eq] at hsp
        obtain ⟨s0, hs0, hs0eq⟩ := List.mem_map.mp hsp
        exact ⟨s0, hs0, hs0eq⟩
      obtain ⟨exid, hexmem, hexid⟩ := List.mem_map.mp (hextra s0 hs0)
      have : exid.song_id ∈ e1.map ExtraParsedRow.song_id := by
        rw [he1ids]
        exact List.mem_map.mpr ⟨exid, hexmem, rfl⟩
      obtain ⟨ex, hex, hexeq⟩ := List.mem_map.mp this
      refine hno ex hex ?_
      show ex.song_id = sp.song_id
      rw [hexeq, hexid, ← hs0eq]
      rfl
    | some ex =>
      -- the members side is matched
      cases om with
      | none =>
        exfalso
        have hno := no_match_of_none_mem_mergeLeft hx
        obtain ⟨e0, he0, he0id⟩ := List.mem_map.mp hmsno
        obtain ⟨mid0, hmid0mem, hmid0⟩ := List.mem_map.mp (hmem e0 he0)
        have hmr : MembersProcessor.parseRow mid0 ∈ m1 := by
          rw [hm1eq]
          exact List.mem_map.mpr ⟨mid0, hmid0mem, rfl⟩
        refine hno (MembersProcessor.parseRow mid0) hmr ?_
        show (MembersProcessor.parseRow mid0).msno = ev.msno
        have : (MembersProcessor.parseRow mid0).msno = mid0.msno := rfl
        rw [this, hmid0, he0id]
      | some mem =>
        have hmemm := match_of_some_mem_mergeLeft hx
        have hmemnull : MembersProcessor.rowHasNull mem = false := by
          rcases List.any_eq_false.mp hm1null mem hmemm.1 with h
          simpa using h
        simp [mergedRowNullFree, hevnull, hspnull, hmemnull]

theorem feature_engineering_eq (p : PreTables) :
    FeatureProcessor.feature_engineering p = .ok
      { train := p.train.map (fun r =>
          (((r, playCountOf p.train (EngCols.song_id r)),
            trackCountOf p.train (EngCols.artist_name r)),
           coverCountOf p.train (EngCols.artist_name r)))
        test := p.test.map (fun r =>
          (((r, playCountOf p.comb (EngCols.song_id r)),
            trackCountOf p.comb (EngCols.artist_name r)),
           coverCountOf p.comb (EngCols.artist_name r))) } := by
  unfold FeatureProcessor.feature_engineering
  rw [engineering_parse_eq, engineering_parse_eq]
  rfl

theorem tt_parse_ne_dispatch (df : EventDF) :
    TrainTestProcessor.parse df ≠ .error .dispatch := by
  intro h
  unfold TrainTestProcessor.parse at h
  by_cases h1 : df.hasTarget = false
  · rw [if_pos h1] at h
    exact Err.noConfusion (Except.error.inj h)
  · rw [if_neg h1] at h
    dsimp only at h
    by_cases h2 : (TrainTestProcessor.outRows df.rows).any
        TrainTestProcessor.rowHasNull = true
    · rw [if_pos h2] at h
      exact Err.noConfusion (Except.error.inj h)
    · rw [if_neg h2] at h
      exact Except.noConfusion h

theorem songs_parse_ne_dispatch (df : List SongsRawRow) :
    SongsProcessor.parse df ≠ .error .dispatch := by
  intro h
  unfold SongsProcessor.parse at h
  by_cases h2 : (df.map SongsProcessor.parseRow).any SongsProcessor.rowHasNull = true
  · rw [if_pos h2] at h
    exact Err.noConfusion (Except.error.inj h)
  · rw [if_neg h2] at h
    exact Except.noConfusion h

theorem members_parse_ne_dispatch (df : List MembersRawRow) :
    MembersProcessor.parse df ≠ .error .dispatch := by
  intro h
  unfold MembersProcessor.parse at h
  by_cases h1 : df.any (fun r => r.registration_init_time.isNone ||
      r.expiration_date.isNone) = true
  · rw [if_pos h1] at h
    exact Err.noConfusion (Except.error.inj h)
  · rw [if_neg h1] at h
    by_cases h2 : (df.map MembersProcessor.parseRow).any MembersProcessor.rowHasNull = true
    · rw [if_pos h2] at h
      exact Err.noConfusion (Except.error.inj h)
    · rw [if_neg h2] at h
      exact Except.noConfusion h

theorem transform_isrc_error_eq {i : Option String} {e : Err}
    (h : SongExtraProcessor.transform_isrc_to_year i = .error e) : e = .valueError := by
  unfold SongExtraProcessor.transform_isrc_to_year at h
  cases i with
  | none => exact absurd h (by simp)
  | some s =>
    dsimp only at h
    cases hd : SongExtraProcessor.digitsToNat ((s.data.drop 5).take 2) with
    | none =>
      rw [hd] at h
      exact (Except.error.inj h).symm
    | some n =>
      rw [hd] at h
      exact absurd h (by simp)

theorem extra_parse_ne_dispatch :
    ∀ df : List ExtraRawRow, SongExtraProcessor.parse df ≠ .error .dispatch := by
  intro df
  induction df with
  | nil =>
    intro h
    unfold SongExtraProcessor.parse at h
    exact Except.noConfusion h
  | cons r rs ih =>
    intro h
    unfold SongExtraProcessor.parse at h
    cases hy : SongExtraProcessor.transform_isrc_to_year r.isrc with
    | error e =>
      rw [hy] at h
      simp only [Bind.bind, Except.bind] at h
      have he := transform_isrc_error_eq hy
      subst he
      exact Err.noConfusion (Except.error.inj h)
    | ok y =>
      rw [hy] at h
      simp only [Bind.bind, Except.bind] at h
      cases hm : SongExtraProcessor.parse rs with
      | error e2 =>
        rw [hm] at h
        have : e2 = Err.dispatch := Except.error.inj h
        subst this
        exact ih hm
      | ok os =>
        rw [hm] at h
        simp [Pure.pure, Except.pure] at h

theorem eng_parse_ne_dispatch (rr : List EngRow) (b : Bool) (d : List EngRow) :
    EngineeringProcessor.parse rr b d ≠ .error .dispatch := by
  cases b with
  | false =>
    rw [engineering_parse_noTarget]
    simp
  | true =>
    rw [engineering_parse_eq]
    simp

/-- C10: the Engineering Transformer succeeds only on a target table carrying
the `target` column: its track-count step reads `df['target']`
unconditionally, so on a table without the column (`hasTarget = false`, the
section-6 test-events schema) `parse` raises a KeyError and returns none of
the three features; conversely a successful parse forces the column to be
present. -/
theorem C10_engineering_requires_target :
    (∀ df ref_df : List EngRow,
      EngineeringProcessor.parse ref_df false df = .error .keyError) ∧
    (∀ (df ref_df : List EngRow) (b : Bool) (out : List (((EngRow × Nat) × Nat) × Nat)),
      EngineeringProcessor.parse ref_df b df = .ok out → b = true) := by
  refine ⟨fun df ref_df => engineering_parse_noTarget ref_df df, ?_⟩
  intro df ref_df b out h
  cases b with
  | false =>
    rw [engineering_parse_noTarget] at h
    exact absurd h (by simp)
  | true => rfl

/-- Witness for C10: the no-target call fails on concrete tables, and the
success direction is discharged on a concrete successful run. -/
theorem C10_engineering_requires_target_witness :
    EngineeringProcessor.parse ([] : List EngRow) false ([] : List EngRow) =
      .error .keyError ∧ (true : Bool) = true := by
  refine ⟨C10_engineering_requires_target.1 [] [], ?_⟩
  exact C10_engineering_requires_target.2 [exEngNullRow] [exEngRefRow] true
    [(((exEngNullRow, 1), 0), 0)] (by decide)

/-- C7: after the play-count operation every target row carries the number
of reference rows with its `song_id`, 0 when the key is absent (the filter
is then empty); the spec's `[A, A, B]` example is instantiated with concrete
rows. -/
theorem C7_play_count :
    (∀ df ref_df : List EngRow,
      EngineeringProcessor.generate_play_count ref_df df =
        df.map (fun r =>
          (r, (ref_df.filter (fun s => decide (s.song_id = r.song_id))).length))) ∧
    EngineeringProcessor.generate_play_count
        [{ exEngRefRow with song_id := "A" }, { exEngRefRow with song_id := "A" },
         { exEngRefRow with song_id := "B" }]
        [{ exEngNullRow with song_id := "A" }, { exEngNullRow with song_id := "C" }] =
      [({ exEngNullRow with song_id := "A" }, 2),
       ({ exEngNullRow with song_id := "C" }, 0)] := by
  constructor
  · intro df ref_df
    rw [generate_play_count_eq]
    rfl
  · decide

/-- Counterexample to C8: reference rows `[(s1, A), (s1, B)]` attribute song
`s1` to both artists, but `drop_duplicates('song_id')` keeps only the first
row, so a target row for artist `B` gets `track_count = 0` while the number
of distinct song keys appearing with `B` in the reference table (the claim's
reading) is 1. -/
theorem C8_track_count_counterexample :
    EngineeringProcessor.generate_track_count [exEngRefA, exEngRefB] true
        [exEngTargetB] = .ok [(exEngTargetB, 0)] ∧
      spec_track_count [exEngRefA, exEngRefB] "B" = 1 := by
  decide

/-- C8 amended: each row's `track_count` counts the song keys whose *first*
occurrence in the reference table carries that row's artist (0 for a null
artist); the per-artist mean/count of the target table's own `target` column
is computed inside the operation but never merged — by the output type, the
only appended column is the track count. -/
theorem C8_track_count_amended (df ref_df : List EngRow) :
    EngineeringProcessor.generate_track_count ref_df true df =
      .ok (df.map (fun r => (r,
        match r.artist_name with
        | none => 0
        | some a => ((dropDupsBy EngRow.song_id [] ref_df).filter
            (fun s => decide (s.artist_name = some a))).length))) := by
  rw [generate_track_count_eq]
  rfl

/-- Counterexample to C9: the engineering transformer has no closing
null-check; on a target row whose songs-side attributes are null it returns
a table that still contains nulls. -/
theorem C9_engineering_returns_nulls :
    EngineeringProcessor.parse [exEngRefRow] true [exEngNullRow] =
        .ok [(((exEngNullRow, 1), 0), 0)] ∧
      engRowSNullFree (((exEngNullRow, 1), 0), 0) = false := by
  decide

/-- C9 amended: the four per-table transformers guarded by the closing
`assert (~df.isnull().any().any())` (train/test, songs, members; song_extra
is total by construction) return null-free tables or fail; the engineering
transformer merely appends its three zero-filled count columns and passes
its input rows through unchanged, so nulls in its input survive. -/
theorem C9_transformer_nullfree_amended :
    (∀ (df : EventDF) (out : EventDF), TrainTestProcessor.parse df = .ok out →
      out.rows.all (fun r => !(TrainTestProcessor.rowHasNull r)) = true) ∧
    (∀ (df : List SongsRawRow) (out : List SongsParsedRow),
      SongsProcessor.parse df = .ok out →
      out.all (fun r => !(SongsProcessor.rowHasNull r)) = true) ∧
    (∀ (df : List MembersRawRow) (out : List MembersParsedRow),
      MembersProcessor.parse df = .ok out →
      out.all (fun r => !(MembersProcessor.rowHasNull r)) = true) ∧
    (∀ (df ref_df : List EngRow) (b : Bool) (out : List (((EngRow × Nat) × Nat) × Nat)),
      EngineeringProcessor.parse ref_df b df = .ok out →
      out.map (fun q => q.1.1.1) = df) := by
  refine ⟨?_, ?_, ?_, ?_⟩
  · intro df out h
    obtain ⟨_, rfl, hnull⟩ := tt_parse_ok_shape h
    rw [List.all_eq_true]
    intro r hr
    have := List.any_eq_false.mp hnull r hr
    simpa using this
  · intro df out h
    obtain ⟨rfl, hnull⟩ := songs_parse_ok_shape h
    rw [List.all_eq_true]
    intro r hr
    have := List.any_eq_false.mp hnull r hr
    simpa using this
  · intro df out h
    obtain ⟨rfl, hnull⟩ := members_parse_ok_shape h
    rw [List.all_eq_true]
    intro r hr
    have := List.any_eq_false.mp hnull r hr
    simpa using this
  · intro df ref_df b out h
    cases b with
    | false =>
      rw [engineering_parse_noTarget] at h
      exact absurd h (by simp)
    | true =>
      rw [engineering_parse_eq] at h
      have := Except.ok.inj h
      subst this
      rw [List.map_map]
      simp [Function.comp_def]

/-- Witness for C9's amended statement: the songs transformer on a concrete
clean table returns a null-free result, via the amended theorem. -/
theorem C9_transformer_nullfree_amended_witness :
    ∃ out : List SongsParsedRow, SongsProcessor.parse [exSong1] = .ok out ∧
      out.all (fun r => !(SongsProcessor.rowHasNull r)) = true := by
  cases h : SongsProcessor.parse [exSong1] with
  | error e =>
    have : (SongsProcessor.parse [exSong1]).isOk = true := by decide
    rw [h] at this
    exact Bool.noConfusion this
  | ok out => exact ⟨out, rfl, C9_transformer_nullfree_amended.2.1 [exSong1] out h⟩

/-- Counterexample to C6: the claim says the event transform succeeds on
every event table regardless of `target`; on a table without the target
column (the real test-events schema) the grouped replay statistics read
`df['target']` and the transform fails. -/
theorem C6_no_target_fails :
    TrainTestProcessor.parse ⟨[exTestRow], false⟩ = .error .keyError := rfl

/-- C6 amended: commands `train` and `test` do route to the identical
event-table transformer, but the transform reads the `target` column: it
fails when the column is absent, and its `1h_source` output depends on the
target values (two tables differing only in `target` produce different
tables). -/
theorem C6_train_test_routing_amended :
    (∀ (df : EventDF) (ref_df : Option AnyDF),
      DataProcessor.process (.events df) "train" ref_df =
        DataProcessor.process (.events df) "test" ref_df) ∧
    (∀ df : EventDF, df.hasTarget = false →
      TrainTestProcessor.parse df = .error .keyError) ∧
    TrainTestProcessor.parse ⟨[exTrainRow], true⟩ ≠
      TrainTestProcessor.parse ⟨[{ exTrainRow with target := 0 }], true⟩ := by
  refine ⟨?_, ?_, ?_⟩
  · intro df ref_df
    simp [DataProcessor.process]
  · intro df h
    unfold TrainTestProcessor.parse
    rw [if_pos h]
  · decide

/-- Witness for C6's amended statement at a concrete no-target table. -/
theorem C6_train_test_routing_amended_witness :
    TrainTestProcessor.parse ⟨[], false⟩ = .error .keyError :=
  C6_train_test_routing_amended.2.1 ⟨[], false⟩ rfl

/-- Counterexample to C2's monotonicity clause: after load, preprocess the
marker is `PREPROCESS_READY = 2`; calling `load_raw` again — its stage-order
assert `_state >= __INITIALIZATION_READY` is vacuous — resets the marker to
`LOAD_READY = 1`, so the marker decreases across the sequence. -/
theorem C2_marker_decreases :
    (FP.run FP.init [StageCall.load exRaw, StageCall.preprocess]).state = 2 ∧
      (FP.run FP.init
        [StageCall.load exRaw, StageCall.preprocess, StageCall.load exRaw]).state = 1 := by
  decide

/-- C2 amended: each stage method raises the stage-order error when the
marker is below the predecessor stage's value — never for `load_raw`, whose
bound `_state >= __INITIALIZATION_READY` is vacuous, so it always succeeds —
and succeeds *only* when the marker is at least that value (`pre_process`
and `feature_engineering` can still fail above the bound for data reasons,
e.g. a members row with a missing date, or a re-run); on success the marker
is set to the called stage's own value.  The marker is *not* monotone:
re-running an earlier stage after a later one lowers it (see the
counterexample). -/
theorem C2_stage_order_amended :
    (∀ (env : RawTables) (s : FP), ∃ s2, FP.load_raw env s = .ok s2 ∧
      s2.state = FeatureProcessor.LOAD_READY) ∧
    (∀ s : FP, s.state < FeatureProcessor.LOAD_READY →
      FP.pre_process s = .error .stageOrder) ∧
    (∀ (s s2 : FP), FP.pre_process s = .ok s2 →
      FeatureProcessor.LOAD_READY ≤ s.state ∧
        s2.state = FeatureProcessor.PREPROCESS_READY) ∧
    (∀ s : FP, s.state < FeatureProcessor.PREPROCESS_READY →
      FP.feature_engineering s = .error .stageOrder) ∧
    (∀ (s s2 : FP), FP.feature_engineering s = .ok s2 →
      FeatureProcessor.PREPROCESS_READY ≤ s.state ∧
        s2.state = FeatureProcessor.ENGINEERING_READY) := by
  refine ⟨?_, ?_, ?_, ?_, ?_⟩
  · intro env s
    refine ⟨⟨.raw env, FeatureProcessor.LOAD_READY⟩, ?_, rfl⟩
    unfold FP.load_raw
    rw [if_pos (show FeatureProcessor.INITIALIZATION_READY ≤ s.state from Nat.zero_le _)]
  · intro s h
    unfold FP.pre_process
    rw [if_neg (by omega)]
  · intro s s2 h
    obtain ⟨tb, st⟩ := s
    unfold FP.pre_process at h
    by_cases hs : FeatureProcessor.LOAD_READY ≤ st
    · rw [if_pos hs] at h
      refine ⟨hs, ?_⟩
      cases tb with
      | raw r =>
        dsimp only at h
        cases hp : FeatureProcessor.pre_process r with
        | error e =>
          rw [hp] at h
          exact absurd h (by simp [Except.map])
        | ok p =>
          rw [hp] at h
          have := Except.ok.inj h
          rw [← this]
      | empty =>
        dsimp only at h
        exact absurd h (by simp)
      | pre p =>
        dsimp only at h
        exact absurd h (by simp)
      | eng e =>
        dsimp only at h
        exact absurd h (by simp)
    · rw [if_neg hs] at h
      exact absurd h (by simp)
  · intro s h
    unfold FP.feature_engineering
    rw [if_neg (by omega)]
  · intro s s2 h
    obtain ⟨tb, st⟩ := s
    unfold FP.feature_engineering at h
    by_cases hs : FeatureProcessor.PREPROCESS_READY ≤ st
    · rw [if_pos hs] at h
      refine ⟨hs, ?_⟩
      cases tb with
      | pre p =>
        dsimp only at h
        cases hp : FeatureProcessor.feature_engineering p with
        | error e =>
          rw [hp] at h
          exact absurd h (by simp [Except.map])
        | ok e =>
          rw [hp] at h
          have := Except.ok.inj h
          rw [← this]
      | empty =>
        dsimp only at h
        exact absurd h (by simp)
      | raw r =>
        dsimp only at h
        exact absurd h (by simp)
      | eng e =>
        dsimp only at h
        exact absurd h (by simp)
    · rw [if_neg hs] at h
      exact absurd h (by simp)

/-- Witness for C2's amended statement: preprocess before load and engineer
after only load both raise the stage-order error, discharged through the
amended theorem at concrete states. -/
theorem C2_stage_order_amended_witness :
    FP.pre_process FP.init = .error .stageOrder ∧
      FP.feature_engineering ⟨.raw exRaw, 1⟩ = .error .stageOrder :=
  ⟨C2_stage_order_amended.2.1 FP.init (by decide),
   C2_stage_order_amended.2.2.2.1 ⟨.raw exRaw, 1⟩ (by decide)⟩

/-- Counterexample to C3: with a train event whose song is absent from the
songs table, the full pipeline still succeeds and its output train table
contains nulls — nothing fills the unmatched songs-side columns after the
left merge. -/
theorem C3_unmatched_keys_leave_nulls :
    (FeatureProcessor.pipeline exRawUnmatched).map
      (fun e => engTableNullFree e.train) = .ok false := by
  decide

/-- C3 amended: the engineered output tables are null-free provided every
train-event song key occurs in the songs table, every songs key occurs in
the provenance table, and every train-event user key occurs in the members
table (the loaded test table is irrelevant: both outputs descend from the
train table through the line-383 transform call).  Rows with unmatched keys
would retain nulls (see the counterexample). -/
theorem C3_pipeline_nullfree_amended {r : RawTables} {e : EngTables}
    (hp : FeatureProcessor.pipeline r = .ok e)
    (hsongs : ∀ ev ∈ r.train.rows, ev.song_id ∈ r.songs.map SongsRawRow.song_id)
    (hextra : ∀ s0 ∈ r.songs, s0.song_id ∈ r.song_extra.map ExtraRawRow.song_id)
    (hmem : ∀ ev ∈ r.train.rows, ev.msno ∈ r.members.map MembersRawRow.msno) :
    engTableNullFree e.train = true ∧ engTableNullFree e.test = true := by
  unfold FeatureProcessor.pipeline at hp
  cases hpre : FeatureProcessor.pre_process r with
  | error e2 =>
    rw [hpre] at hp
    exact absurd hp (by simp [Bind.bind, Except.bind])
  | ok p =>
    rw [hpre] at hp
    simp only [Bind.bind, Except.bind] at hp
    rw [feature_engineering_eq] at hp
    have he := Except.ok.inj hp
    subst he
    obtain ⟨htr, hte⟩ := pre_process_ok_nullfree hpre hsongs hextra hmem
    have hAllMap : ∀ (l : List TrainMergedRow) (f : TrainMergedRow → EngOutRow),
        (l.map f).all engOutRowNullFree = l.all (fun x => engOutRowNullFree (f x)) := by
      intro l f
      induction l with
      | nil => rfl
      | cons x xs ih => simp [List.all_cons, ih]
    constructor
    · unfold engTableNullFree
      dsimp only
      rw [hAllMap]
      exact htr
    · unfold engTableNullFree
      dsimp only
      rw [hAllMap]
      exact hte

/-- Witness for C3's amended statement: the fully matched concrete input
runs the whole pipeline and the outputs are null-free. -/
theorem C3_pipeline_nullfree_amended_witness :
    ∃ e : EngTables, FeatureProcessor.pipeline exRaw = .ok e ∧
      engTableNullFree e.train = true ∧ engTableNullFree e.test = true := by
  cases h : FeatureProcessor.pipeline exRaw with
  | error e2 =>
    have hok : (FeatureProcessor.pipeline exRaw).isOk = true := by decide
    rw [h] at hok
    exact Bool.noConfusion hok
  | ok e =>
    exact ⟨e, rfl, C3_pipeline_nullfree_amended h (by decide) (by decide) (by decide)⟩

/-- Counterexample to C4: with a duplicated `song_id` in the songs table the
songs merge duplicates the one-row train table into two rows — a preprocess
left merge that changes the left table's row count. -/
theorem C4_duplicate_keys_change_rowcount :
    (FeatureProcessor.pre_process exRawDup).map (fun p => p.train.length) = .ok 2 ∧
      exRawDup.train.rows.length = 1 := by
  decide

/-- C4 amended: the Engineering Transformer's three merges always preserve
the target table's row count (their right tables are keyed by construction);
the merges of `pre_process` preserve it only when the songs, provenance, and
members key columns are duplicate-free — end to end the preprocessed train
and test tables then have exactly as many rows as the loaded train table
(the test output mirrors the train input by the line-383 call), and the
merged songs table as many as the loaded songs table.  With duplicated keys
the row count grows (see the counterexample). -/
theorem C4_merge_rowcount_amended :
    (∀ df ref_df : List EngRow,
      (EngineeringProcessor.generate_play_count ref_df df).length = df.length) ∧
    (∀ (df ref_df : List EngRow) (out : List (EngRow × Nat)),
      EngineeringProcessor.generate_track_count ref_df true df = .ok out →
      out.length = df.length) ∧
    (∀ df ref_df : List EngRow,
      (EngineeringProcessor.generate_cover_lang ref_df df).length = df.length) ∧
    (∀ (r : RawTables) (p : PreTables),
      (r.songs.map SongsRawRow.song_id).Nodup →
      (r.song_extra.map ExtraRawRow.song_id).Nodup →
      (r.members.map MembersRawRow.msno).Nodup →
      FeatureProcessor.pre_process r = .ok p →
      p.train.length = r.train.rows.length ∧ p.test.length = r.train.rows.length ∧
        p.songs.length = r.songs.length) := by
  refine ⟨?_, ?_, ?_, ?_⟩
  · intro df ref_df
    rw [generate_play_count_eq, List.length_map]
  · intro df ref_df out h
    rw [generate_track_count_eq] at h
    have := Except.ok.inj h
    rw [← this, List.length_map]
  · intro df ref_df
    rw [generate_cover_lang_eq, List.length_map]
  · intro r p hs he hm hp
    obtain ⟨t1, m1, s1, e1, h1, h3, h4, h5, rfl⟩ := pre_process_ok_shape hp
    obtain ⟨hT1, ht1eq, ht1null⟩ := tt_parse_ok_shape h1
    obtain ⟨hm1eq, _⟩ := members_parse_ok_shape h3
    obtain ⟨hs1eq, _⟩ := songs_parse_ok_shape h4
    have he1ids := extra_parse_ok_shape h5
    have hs1ids : s1.map SongsParsedRow.song_id = r.songs.map SongsRawRow.song_id := by
      rw [hs1eq, List.map_map]
      rfl
    have hm1ids : m1.map MembersParsedRow.msno = r.members.map MembersRawRow.msno := by
      rw [hm1eq, List.map_map]
      rfl
    have he1nodup : (e1.map ExtraParsedRow.song_id).Nodup := by
      rw [he1ids]
      exact he
    have hsongs2 : mergeLeft SongsParsedRow.song_id ExtraParsedRow.song_id s1 e1 =
        s1.map (fun l => (l, e1.find?
          (fun x => decide (x.song_id = l.song_id)))) :=
      mergeLeft_eq_map_find? _ _ _ _ he1nodup
    have hlen_t1 : t1.rows.length = r.train.rows.length := by
      rw [ht1eq]
      exact tt_outRows_length _
    have hkeys2 : ((mergeLeft SongsParsedRow.song_id ExtraParsedRow.song_id s1 e1).map
        (fun s => s.1.song_id)).Nodup := by
      rw [hsongs2, List.map_map]
      show (s1.map (fun l => l.song_id)).Nodup
      rw [show (fun (l : SongsParsedRow) => l.song_id) = SongsParsedRow.song_id from rfl,
        hs1ids]
      exact hs
    have hmnodup : (m1.map MembersParsedRow.msno).Nodup := by
      rw [hm1ids]
      exact hm
    refine ⟨?_, ?_, ?_⟩
    · rw [length_mergeLeft _ _ _ _ hmnodup, length_mergeLeft _ _ _ _ hkeys2, hlen_t1]
    · rw [length_mergeLeft _ _ _ _ hmnodup, length_mergeLeft _ _ _ _ hkeys2, hlen_t1]
    · rw [hsongs2, List.length_map, hs1eq, List.length_map]

/-- Witness for C4's amended statement: the duplicate-free concrete tables
run preprocess with all row counts preserved. -/
theorem C4_merge_rowcount_amended_witness :
    ∃ p : PreTables, FeatureProcessor.pre_process exRaw = .ok p ∧
      p.train.length = exRaw.train.rows.length := by
  cases h : FeatureProcessor.pre_process exRaw with
  | error e2 =>
    have hok : (FeatureProcessor.pre_process exRaw).isOk = true := by decide
    rw [h] at hok
    exact Bool.noConfusion hok
  | ok p =>
    exact ⟨p, rfl, (C4_merge_rowcount_amended.2.2.2 exRaw p (by decide) (by decide)
      (by decide) h).1⟩

/-- Counterexample to C5's "returns a table" clause: the recognized command
`songs` on a table with a missing `song_length` fails with the transformer's
data-integrity assert — neither a returned table nor a `DispatchError`. -/
theorem C5_valid_command_can_fail :
    DataProcessor.process (.songsR [exSongNoLength]) "songs" none =
      .error .dataIntegrity := by
  decide

/-- C5 amended: `process` fails with the dispatch assert exactly when the
command is outside the six-command set or `engineering` has no reference
table; every in-set command invokes its transformer and returns that
transformer's result — which may itself fail (e.g. data-integrity, see the
counterexample) rather than produce a table. -/
theorem C5_dispatch_amended :
    (∀ (df : AnyDF) (cmd : String) (ref_df : Option AnyDF),
      DataProcessor.process df cmd ref_df = .error .dispatch ↔
        (cmd ∉ validCommands ∨ (cmd = "engineering" ∧ ref_df = none))) ∧
    (∀ (df : EventDF) (ref_df : Option AnyDF),
      DataProcessor.process (.events df) "train" ref_df =
        (TrainTestProcessor.parse df).map .events) ∧
    (∀ (df : EventDF) (ref_df : Option AnyDF),
      DataProcessor.process (.events df) "test" ref_df =
        (TrainTestProcessor.parse df).map .events) ∧
    (∀ (df : List MembersRawRow) (ref_df : Option AnyDF),
      DataProcessor.process (.membersR df) "members" ref_df =
        (MembersProcessor.parse df).map .membersP) ∧
    (∀ (df : List SongsRawRow) (ref_df : Option AnyDF),
      DataProcessor.process (.songsR df) "songs" ref_df =
        (SongsProcessor.parse df).map .songsP) ∧
    (∀ (df : List ExtraRawRow) (ref_df : Option AnyDF),
      DataProcessor.process (.extraR df) "song_extra_info" ref_df =
        (SongExtraProcessor.parse df).map .extraP) ∧
    (∀ (d rr : List EngRow) (dh rh : Bool),
      DataProcessor.process (.engT d dh) "engineering" (some (.engT rr rh)) =
        (EngineeringProcessor.parse rr dh d).map .engOut) := by
  refine ⟨?_, fun df ref_df => rfl, fun df ref_df => rfl, fun df ref_df => rfl,
    fun df ref_df => rfl, fun df ref_df => rfl, fun d rr dh rh => rfl⟩
  intro df cmd ref_df
  unfold DataProcessor.process
  by_cases h1 : cmd = "train" ∨ cmd = "test"
  · rw [if_pos h1]
    have hRHS : ¬(cmd ∉ validCommands ∨ (cmd = "engineering" ∧ ref_df = none)) := by
      rintro (hnm | ⟨heq, _⟩)
      · exact hnm (by rcases h1 with rfl | rfl <;> simp [validCommands])
      · rcases h1 with rfl | rfl <;> exact absurd heq (by decide)
    constructor
    · intro h
      exfalso
      cases df with
      | events e =>
        dsimp only at h
        cases hpe : TrainTestProcessor.parse e with
        | ok o =>
          rw [hpe] at h
          exact absurd h (by simp [Except.map])
        | error e2 =>
          rw [hpe] at h
          simp only [Except.map] at h
          have he2 : e2 = Err.dispatch := Except.error.inj h
          subst he2
          exact tt_parse_ne_dispatch e hpe
      | membersR m => exact Err.noConfusion (Except.error.inj h)
      | membersP m => exact Err.noConfusion (Except.error.inj h)
      | songsR m => exact Err.noConfusion (Except.error.inj h)
      | songsP m => exact Err.noConfusion (Except.error.inj h)
      | extraR m => exact Err.noConfusion (Except.error.inj h)
      | extraP m => exact Err.noConfusion (Except.error.inj h)
      | engT m b => exact Err.noConfusion (Except.error.inj h)
      | engOut m => exact Err.noConfusion (Except.error.inj h)
    · intro hr
      exact absurd hr hRHS
  · rw [if_neg h1]
    by_cases h2 : cmd = "members"
    · rw [if_pos h2]
      have hRHS : ¬(cmd ∉ validCommands ∨ (cmd = "engineering" ∧ ref_df = none)) := by
        rintro (hnm | ⟨heq, _⟩)
        · exact hnm (by subst h2; simp [validCommands])
        · subst h2
          exact absurd heq (by decide)
      constructor
      · intro h
        exfalso
        cases df with
        | membersR m =>
          dsimp only at h
          cases hpe : MembersProcessor.parse m with
          | ok o =>
            rw [hpe] at h
            exact absurd h (by simp [Except.map])
          | error e2 =>
            rw [hpe] at h
            simp only [Except.map] at h
            have he2 : e2 = Err.dispatch := Except.error.inj h
            subst he2
            exact members_parse_ne_dispatch m hpe
        | events e => exact Err.noConfusion (Except.error.inj h)
        | membersP m => exact Err.noConfusion (Except.error.inj h)
        | songsR m => exact Err.noConfusion (Except.error.inj h)
        | songsP m => exact Err.noConfusion (Except.error.inj h)
        | extraR m => exact Err.noConfusion (Except.error.inj h)
        | extraP m => exact Err.noConfusion (Except.error.inj h)
        | engT m b => exact Err.noConfusion (Except.error.inj h)
        | engOut m => exact Err.noConfusion (Except.error.inj h)
      · intro hr
        exact absurd hr hRHS
    · rw [if_neg h2]
      by_cases h3 : cmd = "songs"
      · rw [if_pos h3]
        have hRHS : ¬(cmd ∉ validCommands ∨ (cmd = "engineering" ∧ ref_df = none)) := by
          rintro (hnm | ⟨heq, _⟩)
          · exact hnm (by subst h3; simp [validCommands])
          · subst h3
            exact absurd heq (by decide)
        constructor
        · intro h
          exfalso
          cases df with
          | songsR m =>
            dsimp only at h
            cases hpe : SongsProcessor.parse m with
            | ok o =>
              rw [hpe] at h
              exact absurd h (by simp [Except.map])
            | error e2 =>
              rw [hpe] at h
              simp only [Except.map] at h
              have he2 : e2 = Err.dispatch := Except.error.inj h
              subst he2
              exact songs_parse_ne_dispatch m hpe
          | events e => exact Err.noConfusion (Except.error.inj h)
          | membersR m => exact Err.noConfusion (Except.error.inj h)
          | membersP m => exact Err.noConfusion (Except.error.inj h)
          | songsP m => exact Err.noConfusion (Except.error.inj h)
          | extraR m => exact Err.noConfusion (Except.error.inj h)
          | extraP m => exact Err.noConfusion (Except.error.inj h)
          | engT m b => exact Err.noConfusion (Except.error.inj h)
          | engOut m => exact Err.noConfusion (Except.error.inj h)
        · intro hr
          exact absurd hr hRHS
      · rw [if_neg h3]
        by_cases h4 : cmd = "song_extra_info"
        · rw [if_pos h4]
          have hRHS : ¬(cmd ∉ validCommands ∨ (cmd = "engineering" ∧ ref_df = none)) := by
            rintro (hnm | ⟨heq, _⟩)
            · exact hnm (by subst h4; simp [validCommands])
            · subst h4
              exact absurd heq (by decide)
          constructor
          · intro h
            exfalso
            cases df with
            | extraR m =>
              dsimp only at h
              cases hpe : SongExtraProcessor.parse m with
              | ok o =>
                rw [hpe] at h
                exact absurd h (by simp [Except.map])
              | error e2 =>
                rw [hpe] at h
                simp only [Except.map] at h
                have he2 : e2 = Err.dispatch := Except.error.inj h
                subst he2
                exact extra_parse_ne_dispatch m hpe
            | events e => exact Err.noConfusion (Except.error.inj h)
            | membersR m => exact Err.noConfusion (Except.error.inj h)
            | membersP m => exact Err.noConfusion (Except.error.inj h)
            | songsR m => exact Err.noConfusion (Except.error.inj h)
            | songsP m => exact Err.noConfusion (Except.error.inj h)
            | extraP m => exact Err.noConfusion (Except.error.inj h)
            | engT m b => exact Err.noConfusion (Except.error.inj h)
            | engOut m => exact Err.noConfusion (Except.error.inj h)
          · intro hr
            exact absurd hr hRHS
        · rw [if_neg h4]
          by_cases h5 : cmd = "engineering"
          · rw [if_pos h5]
            subst h5
            cases ref_df with
            | none =>
              simp [validCommands]
            | some rr =>
              have hRHS : ¬(("engineering" : String) ∉ validCommands ∨
                  (("engineering" : String) = "engineering" ∧
                    (some rr : Option AnyDF) = none)) := by
                rintro (hnm | ⟨_, hco⟩)
                · exact hnm (by simp [validCommands])
                · exact Option.noConfusion hco
              constructor
              · intro h
                exfalso
                cases df with
                | engT d dh =>
                  cases rr with
                  | engT rrows rh =>
                    dsimp only at h
                    cases hpe : EngineeringProcessor.parse rrows dh d with
                    | ok o =>
                      rw [hpe] at h
                      exact absurd h (by simp [Except.map])
                    | error e2 =>
                      rw [hpe] at h
                      simp only [Except.map] at h
                      have he2 : e2 = Err.dispatch := Except.error.inj h
                      subst he2
                      exact eng_parse_ne_dispatch rrows dh d hpe
                  | events e => exact Err.noConfusion (Except.error.inj h)
                  | membersR m => exact Err.noConfusion (Except.error.inj h)
                  | membersP m => exact Err.noConfusion (Except.error.inj h)
                  | songsR m => exact Err.noConfusion (Except.error.inj h)
                  | songsP m => exact Err.noConfusion (Except.error.inj h)
                  | extraR m => exact Err.noConfusion (Except.error.inj h)
                  | extraP m => exact Err.noConfusion (Except.error.inj h)
                  | engOut m => exact Err.noConfusion (Except.error.inj h)
                | events e =>
                  cases rr <;> exact Err.noConfusion (Except.error.inj h)
                | membersR m =>
                  cases rr <;> exact Err.noConfusion (Except.error.inj h)
                | membersP m =>
                  cases rr <;> exact Err.noConfusion (Except.error.inj h)
                | songsR m =>
                  cases rr <;> exact Err.noConfusion (Except.error.inj h)
                | songsP m =>
                  cases rr <;> exact Err.noConfusion (Except.error.inj h)
                | extraR m =>
                  cases rr <;> exact Err.noConfusion (Except.error.inj h)
                | extraP m =>
                  cases rr <;> exact Err.noConfusion (Except.error.inj h)
                | engOut m =>
                  cases rr <;> exact Err.noConfusion (Except.error.inj h)
              · intro hr
                exact absurd hr hRHS
          · rw [if_neg h5]
            constructor
            · intro _
              left
              intro hmemv
              simp only [validCommands, List.mem_cons, List.not_mem_nil,
                or_false] at hmemv
              rcases hmemv with hc | hc | hc | hc | hc | hc
              · exact h1 (Or.inl hc)
              · exact h1 (Or.inr hc)
              · exact h2 hc
              · exact h3 hc
              · exact h4 hc
              · exact h5 hc
            · intro _
              rfl

/-- Witness for C1 at the concrete input tables. -/
theorem C1_test_transform_stale_train_witness :
    FeatureProcessor.pre_process exRaw = pre_process_spec_stale_train exRaw :=
  C1_test_transform_stale_train.1 exRaw

/-- Witness for C5's amended statement: an unknown command and `engineering`
without a reference table both fail with the dispatch error, via the amended
theorem. -/
theorem C5_dispatch_amended_witness :
    DataProcessor.process (.events ⟨[], true⟩) "bogus" none = .error .dispatch ∧
      DataProcessor.process (.engT [] true) "engineering" none = .error .dispatch :=
  ⟨(C5_dispatch_amended.1 (.events ⟨[], true⟩) "bogus" none).mpr (by decide),
   (C5_dispatch_amended.1 (.engT [] true) "engineering" none).mpr (by decide)⟩
